import Mathlib

set_option maxRecDepth 100000

/-!
Verification of the AVRTools I2C (TWI) subsystem: a shallow embedding of the
Master protocol engine (`I2cMaster.cpp`), its transaction queue
(`BufferI2cTx`), the synchronous facade, and the Slave protocol engine
(`I2cSlave.cpp`), followed by theorems about the embedded definitions.

Modelling conventions:
* 8-bit machine integers are `Nat` with explicit `% 256` exactly where the C
  computation can wrap; compile-time configuration constants take their
  default values from the headers (`I2C_MASTER_MAX_TX_MSG_LEN = 24`,
  `I2C_MASTER_MAX_TX_MSG_NBR = 3`, `I2C_SLAVE_BUFFER_SIZE = 32`).
* Caller-owned cells reached through `volatile uint8_t*` pointers are
  modelled by an explicit byte memory `Mem : Nat → Nat` indexed by address,
  with the C null pointer rendered as address `0` (as on AVR, where address 0
  is real data space).  A store through a pointer `p` is
  `Function.update mem p v`.
* Each `TWCR` write made by the interrupt handler goes through exactly one of
  the control macros of the source; the model records which macro ran in a
  `control` field instead of reproducing the bit pattern (note
  `sendStart` and `sendRestart` write identical bits).
* The hardware status values are the standard avr-libc `<util/twi.h>`
  constants (that header is an external dependency of the repository).
-/

/-- avr-libc `<util/twi.h>`: START transmitted. -/
def TW_START : Nat := 0x08
/-- avr-libc `<util/twi.h>`: repeated START transmitted. -/
def TW_REP_START : Nat := 0x10
/-- avr-libc `<util/twi.h>`: SLA+W transmitted, ACK received. -/
def TW_MT_SLA_ACK : Nat := 0x18
/-- avr-libc `<util/twi.h>`: SLA+W transmitted, NACK received. -/
def TW_MT_SLA_NACK : Nat := 0x20
/-- avr-libc `<util/twi.h>`: data transmitted, ACK received. -/
def TW_MT_DATA_ACK : Nat := 0x28
/-- avr-libc `<util/twi.h>`: data transmitted, NACK received. -/
def TW_MT_DATA_NACK : Nat := 0x30
/-- avr-libc `<util/twi.h>`: arbitration lost (master transmit or receive). -/
def TW_MT_ARB_LOST : Nat := 0x38
/-- avr-libc `<util/twi.h>`: SLA+R transmitted, ACK received. -/
def TW_MR_SLA_ACK : Nat := 0x40
/-- avr-libc `<util/twi.h>`: SLA+R transmitted, NACK received. -/
def TW_MR_SLA_NACK : Nat := 0x48
/-- avr-libc `<util/twi.h>`: data received, ACK returned. -/
def TW_MR_DATA_ACK : Nat := 0x50
/-- avr-libc `<util/twi.h>`: data received, NACK returned. -/
def TW_MR_DATA_NACK : Nat := 0x58
/-- avr-libc `<util/twi.h>`: own SLA+R received, ACK returned. -/
def TW_ST_SLA_ACK : Nat := 0xA8
/-- avr-libc `<util/twi.h>`: arbitration lost, own SLA+R received, ACK returned. -/
def TW_ST_ARB_LOST_SLA_ACK : Nat := 0xB0
/-- avr-libc `<util/twi.h>`: data byte transmitted by slave, ACK received. -/
def TW_ST_DATA_ACK : Nat := 0xB8
/-- avr-libc `<util/twi.h>`: data byte transmitted by slave, NACK received. -/
def TW_ST_DATA_NACK : Nat := 0xC0
/-- avr-libc `<util/twi.h>`: last data byte transmitted (TWEA = 0), ACK received. -/
def TW_ST_LAST_DATA : Nat := 0xC8
/-- avr-libc `<util/twi.h>`: own SLA+W received, ACK returned. -/
def TW_SR_SLA_ACK : Nat := 0x60
/-- avr-libc `<util/twi.h>`: arbitration lost, own SLA+W received, ACK returned. -/
def TW_SR_ARB_LOST_SLA_ACK : Nat := 0x68
/-- avr-libc `<util/twi.h>`: general call received, ACK returned. -/
def TW_SR_GCALL_ACK : Nat := 0x70
/-- avr-libc `<util/twi.h>`: arbitration lost, general call received, ACK returned. -/
def TW_SR_ARB_LOST_GCALL_ACK : Nat := 0x78
/-- avr-libc `<util/twi.h>`: previously addressed with own SLA+W, data received, ACK returned. -/
def TW_SR_DATA_ACK : Nat := 0x80
/-- avr-libc `<util/twi.h>`: previously addressed with own SLA+W, data received, NACK returned. -/
def TW_SR_DATA_NACK : Nat := 0x88
/-- avr-libc `<util/twi.h>`: previously addressed with general call, data received, ACK returned. -/
def TW_SR_GCALL_DATA_ACK : Nat := 0x90
/-- avr-libc `<util/twi.h>`: previously addressed with general call, data received, NACK returned. -/
def TW_SR_GCALL_DATA_NACK : Nat := 0x98
/-- avr-libc `<util/twi.h>`: STOP or repeated START received while addressed as slave. -/
def TW_SR_STOP : Nat := 0xA0
/-- avr-libc `<util/twi.h>`: no relevant state information available. -/
def TW_NO_INFO : Nat := 0xF8
/-- avr-libc `<util/twi.h>`: bus error due to illegal START or STOP. -/
def TW_BUS_ERROR : Nat := 0x00

/-- Byte memory holding the caller-owned cells reached through
`volatile uint8_t*` pointers.  Addresses are `Nat`; the C null pointer is
address `0`. -/
abbrev Mem := Nat → Nat

namespace I2cMaster

/-- `I2cMaster.h` `I2cStatusCodes`: communications completed with no error. -/
def kI2cCompletedOk : Nat := 0x00
/-- `I2cMaster.h` `I2cStatusCodes`: communications had an error. -/
def kI2cError : Nat := 0x01
/-- `I2cMaster.h` `I2cStatusCodes`: communications not started yet. -/
def kI2cNotStarted : Nat := 0x02
/-- `I2cMaster.h` `I2cStatusCodes`: communications still in progress. -/
def kI2cInProgress : Nat := 0x04

/-- `I2cMaster.h` `I2cSendErrorCodes`: no error. -/
def kI2cNoError : Nat := 0
/-- `I2cMaster.h` `I2cSendErrorCodes`: the transmit buffer is full. -/
def kI2cErrTxBufferFull : Nat := 1
/-- `I2cMaster.h` `I2cSendErrorCodes`: the message is too long. -/
def kI2cErrMsgTooLong : Nat := 2
/-- `I2cMaster.h` `I2cSendErrorCodes`: the status pointer is null. -/
def kI2cErrNullStatusPtr : Nat := 3
/-- `I2cMaster.h` `I2cSendErrorCodes`: writing with no data provided. -/
def kI2cErrWriteWithoutData : Nat := 4
/-- `I2cMaster.h` `I2cSendErrorCodes`: reading with no storage provided. -/
def kI2cErrReadWithoutStorage : Nat := 5

/-- `I2cMaster.cpp` anonymous-namespace `I2cTxMode`: write. -/
def kI2cWrite : Nat := 0x01
/-- `I2cMaster.cpp` anonymous-namespace `I2cTxMode`: read. -/
def kI2cRead : Nat := 0x02
/-- `I2cMaster.cpp` anonymous-namespace `I2cTxMode`: write, restart, read. -/
def kI2cWriteRestartRead : Nat := 0x03
/-- `I2cMaster.cpp` anonymous-namespace `I2cTxMode`: mask selecting the write bit. -/
def kI2cWriteMask : Nat := 0x01

/-- `kMaxMsgLen = I2C_MASTER_MAX_TX_MSG_LEN` (default 24, `I2cMaster.h`). -/
def kMaxMsgLen : Nat := 24
/-- `kMaxNbrMsgs = I2C_MASTER_MAX_TX_MSG_NBR` (default 3, `I2cMaster.h`). -/
def kMaxNbrMsgs : Nat := 3

/-- `I2cMaster.cpp` macro `SLA_W(address) = (address << 1)`, stored to the
8-bit `TWDR` register. -/
def SLA_W (address : Nat) : Nat := (address <<< 1) % 256

/-- `I2cMaster.cpp` macro `SLA_R(address) = ((address << 1) | TW_READ)`,
stored to the 8-bit `TWDR` register. -/
def SLA_R (address : Nat) : Nat := ((address <<< 1) ||| 1) % 256

/-- One slot of `BufferI2cTx`: the slice of the parallel arrays
`mAddress`, `mTxMode`, `mTxBuffer`, `mTxBufferSize`, `mRxBuffer`,
`mRxBufferSize`, `mRxCounter`, `mStatus` at one message index.  Pointer-typed
entries (`mRxBuffer`, `mRxCounter`, `mStatus`) hold memory addresses. -/
structure Slot where
  address : Nat := 0
  txMode : Nat := 0
  txData : Nat → Nat := fun _ => 0
  txBufferSize : Nat := 0
  rxBufPtr : Nat := 0
  rxBufferSize : Nat := 0
  rxCntPtr : Nat := 0
  statusPtr : Nat := 0

/-- The transaction queue `BufferI2cTx`: per-slot storage plus the ring-buffer
bookkeeping `mCurrentByte`, `mNbrMsgs`, `mCurrentMsg`. -/
structure BufferI2cTx where
  slots : Nat → Slot
  currentByte : Nat := 0
  nbrMsgs : Nat := 0
  currentMsg : Nat := 0

/-- The freshly constructed queue (`BufferI2cTx::BufferI2cTx`): counters all
zero; slot storage is uninitialised in C and starts as default slots here. -/
def initialBuffer : BufferI2cTx :=
  { slots := fun _ => {}, currentByte := 0, nbrMsgs := 0, currentMsg := 0 }

/-- `BufferI2cTx::getCurrentAddress`. -/
def getCurrentAddress (b : BufferI2cTx) : Nat := (b.slots b.currentMsg).address

/-- `BufferI2cTx::getCurrentTxMode`. -/
def getCurrentTxMode (b : BufferI2cTx) : Nat := (b.slots b.currentMsg).txMode

/-- `BufferI2cTx::setCurrentTxMode`. -/
def setCurrentTxMode (b : BufferI2cTx) (mode : Nat) : BufferI2cTx :=
  { b with slots :=
      Function.update b.slots b.currentMsg { b.slots b.currentMsg with txMode := mode } }

/-- `BufferI2cTx::getCurrentRxBufferPtr` (returns the stored pointer). -/
def getCurrentRxBufferPtr (b : BufferI2cTx) : Nat := (b.slots b.currentMsg).rxBufPtr

/-- `BufferI2cTx::getCurrentRxBufferSize`. -/
def getCurrentRxBufferSize (b : BufferI2cTx) : Nat := (b.slots b.currentMsg).rxBufferSize

/-- `BufferI2cTx::getCurrentRxBufferCtr` (returns the stored pointer). -/
def getCurrentRxBufferCtr (b : BufferI2cTx) : Nat := (b.slots b.currentMsg).rxCntPtr

/-- `BufferI2cTx::getCurrentStatus` (returns the stored pointer). -/
def getCurrentStatus (b : BufferI2cTx) : Nat := (b.slots b.currentMsg).statusPtr

/-- `BufferI2cTx::getCurrentByte`:
`mCurrentByte < mTxBufferSize[mCurrentMsg] ? mTxBuffer[mCurrentMsg][mCurrentByte++] : -1`.
The `-1` sentinel of the C `int` return is rendered as `none`. -/
def getCurrentByte (b : BufferI2cTx) : Option Nat × BufferI2cTx :=
  if b.currentByte < (b.slots b.currentMsg).txBufferSize then
    (some ((b.slots b.currentMsg).txData b.currentByte),
      { b with currentByte := b.currentByte + 1 })
  else
    (none, b)

/-- `BufferI2cTx::isFull`: `mNbrMsgs >= kMaxNbrMsgs`. -/
def isFull (b : BufferI2cTx) : Bool := b.nbrMsgs ≥ kMaxNbrMsgs

/-- `BufferI2cTx::messagePending`: `static_cast<bool>(mNbrMsgs)`. -/
def messagePending (b : BufferI2cTx) : Bool := b.nbrMsgs ≠ 0

/-- `BufferI2cTx::doneWithCurrentMessage`: decrement `mNbrMsgs` (8-bit wrap),
advance `mCurrentMsg` when messages remain, always reset `mCurrentByte`;
returns whether another message is pending. -/
def doneWithCurrentMessage (b : BufferI2cTx) : Bool × BufferI2cTx :=
  let n := (b.nbrMsgs + 255) % 256
  if n ≠ 0 then
    let c :=
      if b.currentMsg + 1 ≥ kMaxNbrMsgs then b.currentMsg + 1 - kMaxNbrMsgs
      else b.currentMsg + 1
    (true, { b with nbrMsgs := n, currentMsg := c, currentByte := 0 })
  else
    (false, { b with nbrMsgs := n, currentByte := 0 })

/-- The `if (txData && txLen) memcpy(mTxBuffer[slot], txData, txLen);` step
of `BufferI2cTx::push`: overwrite the first `txLen` bytes of the slot's
transmit row with the caller's data, leaving the rest of the row as it was;
a null source or a zero length leaves the row untouched. -/
def copyTxData (txData : Option (List Nat)) (txLen : Nat) (old : Nat → Nat) :
    Nat → Nat :=
  match txData with
  | some l => if txLen ≠ 0 then (fun i => if i < txLen then l.getD i 0 else old i) else old
  | none => old

/-- `BufferI2cTx::push`.  Arguments mirror the C signature
`push(address, txMode, txData, txLen, rxBuf, rxLen, rxCnt, status)` with the
`txData` source array passed by value as an optional list (`none` = null) and
the three caller pointers as addresses (`0` = null).  Returns the error code
together with the new queue and the new caller memory; note that on the
success path the source executes `*rxCnt = 0;` and `*status = kI2cNotStarted;`
unconditionally, in that order. -/
def push (address txMode : Nat) (txData : Option (List Nat)) (txLen : Nat)
    (rxBuf rxLen rxCnt status : Nat) (b : BufferI2cTx) (m : Mem) :
    Nat × BufferI2cTx × Mem :=
  if b.nbrMsgs ≥ kMaxNbrMsgs then
    (kI2cErrTxBufferFull, b, m)
  else if txLen > kMaxMsgLen then
    (kI2cErrMsgTooLong, b, m)
  else if status = 0 then
    (kI2cErrNullStatusPtr, b, m)
  else if (txMode = kI2cWrite ∨ txMode = kI2cWriteRestartRead) ∧
      (txData = none ∨ txLen = 0) then
    (kI2cErrWriteWithoutData, b, m)
  else if (txMode = kI2cRead ∨ txMode = kI2cWriteRestartRead) ∧
      (rxBuf = 0 ∨ rxLen = 0 ∨ rxCnt = 0) then
    (kI2cErrReadWithoutStorage, b, m)
  else
    let slot := (b.currentMsg + b.nbrMsgs) % kMaxNbrMsgs
    let s0 := b.slots slot
    let s1 : Slot :=
      { address := address
        txMode := txMode
        txBufferSize := if txData ≠ none ∧ txLen ≠ 0 then txLen else 0
        txData := copyTxData txData txLen s0.txData
        rxBufPtr := rxBuf
        rxBufferSize := if rxLen ≠ 0 ∧ rxBuf ≠ 0 ∧ rxCnt ≠ 0 then rxLen else 0
        rxCntPtr := rxCnt
        statusPtr := status }
    let m1 := Function.update m rxCnt 0
    let m2 := Function.update m1 status kI2cNotStarted
    (kI2cNoError,
      { b with slots := Function.update b.slots slot s1, nbrMsgs := b.nbrMsgs + 1 },
      m2)

/-- The `TWCR` write performed at the end of an interrupt-handler branch,
identified by the control macro of `I2cMaster.cpp` that produced it.
`sendStart` and `sendRestart` write identical register bits (both request a
START with the interrupt enabled); `sendStop` and the post-`I2cMaster::start`
idle value clear the interrupt-enable bit. -/
inductive TwiControl where
  | idleEnabled
  | sendNextByte
  | sendStop
  | sendStart
  | sendRestart
  | sendStopAndStart
  | getNextByteWithACK
  | getNextByteWithNACK
  deriving DecidableEq, Repr

/-- Whether a `TwiControl` value left the TWI interrupt enabled (`TWIE` bit):
set by every control macro except `sendStop` and the initial
`I2cMaster::start` register value. -/
def TwiControl.twie : TwiControl → Bool
  | .idleEnabled => false
  | .sendStop => false
  | _ => true

/-- The state shared between the Master interrupt handler and its callers:
the queue `gI2cBuffer`, the caller-cell memory, the flags `gI2cBusy` and
`gRetries`, the `TWDR` data register, and the last `TWCR` control write. -/
structure MasterState where
  buffer : BufferI2cTx
  mem : Mem
  busy : Bool := false
  retries : Nat := 0
  twdr : Nat := 0xFF
  control : TwiControl := .idleEnabled

/-- `ISR(TWI_vect)` of `I2cMaster.cpp`: one interrupt-handler invocation.
`special` is the compile-time flag `I2C_MASTER_SLA_NACK_SPECIAL_HANDLING`
(absent from the build by default, hence `false` in the shipped
configuration); `tw` is `TW_STATUS` and `dataIn` the value of `TWDR` on
entry (the received byte in the receive branches). -/
def masterIsr (special : Bool) (tw dataIn : Nat) (st : MasterState) : MasterState :=
  if tw = TW_START ∨ tw = TW_REP_START then
    let twdr :=
      if getCurrentTxMode st.buffer &&& kI2cWriteMask ≠ 0 then
        SLA_W (getCurrentAddress st.buffer)
      else
        SLA_R (getCurrentAddress st.buffer)
    { st with
        twdr := twdr
        mem := Function.update st.mem (getCurrentStatus st.buffer) kI2cInProgress
        retries := if special then 0 else st.retries
        busy := true
        control := .sendNextByte }
  else if tw = TW_MT_SLA_ACK ∨ tw = TW_MT_DATA_ACK then
    let r := getCurrentByte st.buffer
    match r.1 with
    | some byte =>
        { st with buffer := r.2, twdr := byte, control := .sendNextByte }
    | none =>
        if getCurrentTxMode r.2 = kI2cWriteRestartRead then
          { st with buffer := setCurrentTxMode r.2 kI2cRead, control := .sendRestart }
        else
          let m1 := Function.update st.mem (getCurrentStatus r.2) kI2cCompletedOk
          let d := doneWithCurrentMessage r.2
          if d.1 then
            { st with buffer := d.2, mem := m1, control := .sendRestart }
          else
            { st with buffer := d.2, mem := m1, busy := false, control := .sendStop }
  else if tw = TW_MR_SLA_ACK then
    if getCurrentRxBufferSize st.buffer > 1 then
      { st with control := .getNextByteWithACK }
    else
      { st with control := .getNextByteWithNACK }
  else if tw = TW_MR_DATA_ACK then
    let n := getCurrentRxBufferCtr st.buffer
    let m1 := Function.update st.mem (getCurrentRxBufferPtr st.buffer + st.mem n) dataIn
    let m2 := Function.update m1 n ((m1 n + 1) % 256)
    if m2 n < (getCurrentRxBufferSize st.buffer + 255) % 256 then
      { st with mem := m2, control := .getNextByteWithACK }
    else
      { st with mem := m2, control := .getNextByteWithNACK }
  else if tw = TW_MR_DATA_NACK then
    let n := getCurrentRxBufferCtr st.buffer
    let m1 := Function.update st.mem (getCurrentRxBufferPtr st.buffer + st.mem n) dataIn
    let m2 := Function.update m1 n ((m1 n + 1) % 256)
    let m3 := Function.update m2 (getCurrentStatus st.buffer) kI2cCompletedOk
    let d := doneWithCurrentMessage st.buffer
    if d.1 then
      { st with buffer := d.2, mem := m3, control := .sendRestart }
    else
      { st with buffer := d.2, mem := m3, busy := false, control := .sendStop }
  else if tw = TW_MT_ARB_LOST then
    { st with control := .sendRestart }
  else if special ∧ (tw = TW_MT_SLA_NACK ∨ tw = TW_MR_SLA_NACK) then
    if st.retries < 3 then
      { st with retries := st.retries + 1, control := .sendStart }
    else
      { st with
          retries := 0
          mem := Function.update st.mem (getCurrentStatus st.buffer) (tw ||| kI2cError)
          busy := false
          control := .sendStop }
  else
    let m1 := Function.update st.mem (getCurrentStatus st.buffer) (tw ||| kI2cError)
    let d := doneWithCurrentMessage st.buffer
    if d.1 then
      { st with buffer := d.2, mem := m1, control := .sendStopAndStart }
    else
      { st with buffer := d.2, mem := m1, busy := false, control := .sendStop }

/-- Fold the interrupt handler over a list of `(TW_STATUS, TWDR-in)` hardware
events, in order of arrival. -/
def runMaster (special : Bool) (events : List (Nat × Nat)) (st : MasterState) :
    MasterState :=
  events.foldl (fun s e => masterIsr special e.1 e.2 s) st

/-- Anonymous-namespace `startI2c()`: when the engine is idle
(`!gI2cBusy && !(TWCR & (1<<TWIE))`), mark it busy, clear `gRetries` (under
the special-handling flag; the field is simply absent otherwise, so clearing
it unconditionally is equivalent) and request a START condition. -/
def startI2c (st : MasterState) : MasterState :=
  if ¬st.busy ∧ ¬st.control.twie then
    { st with busy := true, retries := 0, control := .sendStart }
  else
    st

/-- `I2cMaster::writeAsync(address, registerAddress, status)`: submits a
one-byte write.  The leading spin on a full queue and the `startI2c()` kick
are the caller-side busy-wait and the hardware `TWCR` write; the enqueue
itself is exactly this `push` call with null receive arguments. -/
def writeAsyncReg (address registerAddress status : Nat) (b : BufferI2cTx) (m : Mem) :
    Nat × BufferI2cTx × Mem :=
  push address kI2cWrite (some [registerAddress]) 1 0 0 0 status b m

/-- `I2cMaster::writeAsync(address, registerAddress, data, status)`:
submits a register-plus-byte write (`temp = {registerAddress, data}`). -/
def writeAsyncRegData (address registerAddress data status : Nat) (b : BufferI2cTx)
    (m : Mem) : Nat × BufferI2cTx × Mem :=
  push address kI2cWrite (some [registerAddress, data]) 2 0 0 0 status b m

/-- `I2cMaster::writeAsync(address, registerAddress, const char* data, status)`:
submits the register byte followed by the `strlen(data)` bytes of the
null-terminated string, passed here as the list of its bytes. -/
def writeAsyncStr (address registerAddress : Nat) (data : List Nat) (status : Nat)
    (b : BufferI2cTx) (m : Mem) : Nat × BufferI2cTx × Mem :=
  push address kI2cWrite (some (registerAddress :: data)) (data.length + 1)
    0 0 0 status b m

/-- `I2cMaster::writeAsync(address, registerAddress, data, numberBytes, status)`:
submits the register byte followed by the first `numberBytes` bytes of the
caller's buffer. -/
def writeAsyncBuf (address registerAddress : Nat) (data : List Nat)
    (numberBytes status : Nat) (b : BufferI2cTx) (m : Mem) :
    Nat × BufferI2cTx × Mem :=
  push address kI2cWrite (some (registerAddress :: data.take numberBytes))
    (numberBytes + 1) 0 0 0 status b m

/-- `I2cMaster::readAsync(address, numberBytes, destination, bytesRead, status)`:
submits a pure read with null transmit data. -/
def readAsyncBuf (address numberBytes destination bytesRead status : Nat)
    (b : BufferI2cTx) (m : Mem) : Nat × BufferI2cTx × Mem :=
  push address kI2cRead none 0 destination numberBytes bytesRead status b m

/-- `I2cMaster::readAsync(address, registerAddress, numberBytes, destination,
bytesRead, status)`: submits a write-then-read with the register byte as the
write payload. -/
def readAsyncReg (address registerAddress numberBytes destination bytesRead status : Nat)
    (b : BufferI2cTx) (m : Mem) : Nat × BufferI2cTx × Mem :=
  push address kI2cWriteRestartRead (some [registerAddress]) 1 destination
    numberBytes bytesRead status b m

/-- `waitForCompletion(status)` spins while the cell holds `kI2cNotStarted`
or `kI2cInProgress`; the synchronous wrappers below therefore observe, once
the spin exits, a `finalStatus` value outside that set, written
asynchronously by the interrupt handler.  Each wrapper returns
`err` when the asynchronous submission failed and `-finalStatus` otherwise
(`return -static_cast<int>(status)`), together with the queue and memory
left by the submission. -/
def syncReturn (err finalStatus : Nat) : Int :=
  if err ≠ 0 then (err : Int) else -(finalStatus : Int)

/-- `I2cMaster::writeSync(address, registerAddress)`. -/
def writeSyncReg (address registerAddress status : Nat) (b : BufferI2cTx) (m : Mem)
    (finalStatus : Nat) : Int × BufferI2cTx × Mem :=
  let r := writeAsyncReg address registerAddress status b m
  (syncReturn r.1 finalStatus, r.2)

/-- `I2cMaster::writeSync(address, registerAddress, data)`. -/
def writeSyncRegData (address registerAddress data status : Nat) (b : BufferI2cTx)
    (m : Mem) (finalStatus : Nat) : Int × BufferI2cTx × Mem :=
  let r := writeAsyncRegData address registerAddress data status b m
  (syncReturn r.1 finalStatus, r.2)

/-- `I2cMaster::writeSync(address, registerAddress, const char* data)`. -/
def writeSyncStr (address registerAddress : Nat) (data : List Nat) (status : Nat)
    (b : BufferI2cTx) (m : Mem) (finalStatus : Nat) : Int × BufferI2cTx × Mem :=
  let r := writeAsyncStr address registerAddress data status b m
  (syncReturn r.1 finalStatus, r.2)

/-- `I2cMaster::writeSync(address, registerAddress, data, numberBytes)`. -/
def writeSyncBuf (address registerAddress : Nat) (data : List Nat)
    (numberBytes status : Nat) (b : BufferI2cTx) (m : Mem) (finalStatus : Nat) :
    Int × BufferI2cTx × Mem :=
  let r := writeAsyncBuf address registerAddress data numberBytes status b m
  (syncReturn r.1 finalStatus, r.2)

/-- `I2cMaster::readSync(address, numberBytes, destination)`. -/
def readSyncBuf (address numberBytes destination bytesRead status : Nat)
    (b : BufferI2cTx) (m : Mem) (finalStatus : Nat) : Int × BufferI2cTx × Mem :=
  let r := readAsyncBuf address numberBytes destination bytesRead status b m
  (syncReturn r.1 finalStatus, r.2)

/-- `I2cMaster::readSync(address, registerAddress, numberBytes, destination)`. -/
def readSyncReg (address registerAddress numberBytes destination bytesRead status : Nat)
    (b : BufferI2cTx) (m : Mem) (finalStatus : Nat) : Int × BufferI2cTx × Mem :=
  let r := readAsyncReg address registerAddress numberBytes destination bytesRead
    status b m
  (syncReturn r.1 finalStatus, r.2)

end I2cMaster

namespace I2cSlave

/-- `I2cSlave.h` `I2cStatusCodes`: completed with no error. -/
def kI2cCompletedOk : Nat := 0x00
/-- `I2cSlave.h` `I2cStatusCodes`: encountered an error. -/
def kI2cError : Nat := 0x01
/-- `I2cSlave.h` `I2cStatusCodes`: master terminated transmission early. -/
def kI2cTxPartial : Nat := 0x02
/-- `I2cSlave.h` `I2cStatusCodes`: received message larger than the buffer. -/
def kI2cRxOverflow : Nat := 0x04
/-- `I2cSlave.h` `I2cStatusCodes`: communications still in progress. -/
def kI2cInProgress : Nat := 0x06

/-- `kI2cBufferSize = I2C_SLAVE_BUFFER_SIZE` (default 32, `I2cSlave.h`). -/
def kI2cBufferSize : Nat := 32

/-- The `TWCR` write performed at the end of a slave interrupt-handler
branch, identified by the control macro of `I2cSlave.cpp` that produced it.
`transmitByte`, `standby` and `getNextByteWithACK` write identical bits
(`TWEA` set); `getNextByteWithNACK` clears `TWEA`. -/
inductive SlaveControl where
  | enabled
  | transmitByte
  | standby
  | getNextByteWithACK
  | getNextByteWithNACK
  deriving DecidableEq, Repr

/-- The user-supplied `I2cSlave::processI2cMessage(buffer, len)` callback:
given the receive buffer contents and the received length, returns the new
buffer contents (the callback may write its response in place) and the
response length. -/
abbrev Callback := (Nat → Nat) → Nat → (Nat → Nat) × Nat

/-- The file-scope state of `I2cSlave.cpp`: `gI2cBuffer`, `gI2cBufferIndex`,
`gI2cMsgSize`, `gI2cStatus`, `gI2cBusy`, plus the `TWDR` register and the
last `TWCR` control write. -/
structure SlaveState where
  buffer : Nat → Nat
  bufferIndex : Nat := 0
  msgSize : Nat := 0
  status : Nat := kI2cCompletedOk
  busy : Bool := false
  twdr : Nat := 0xFF
  control : SlaveControl := .enabled

/-- The state after `I2cSlave::start(...)`: flags initialised, buffer
contents left as found (all zero here), `TWDR = 0xFF`, interrupt enabled
with `TWEA` set. -/
def startState : SlaveState :=
  { buffer := fun _ => 0, bufferIndex := 0, msgSize := 0,
    status := kI2cCompletedOk, busy := false, twdr := 0xFF, control := .enabled }

/-- `ISR(TWI_vect)` of `I2cSlave.cpp`: one interrupt-handler invocation.
`cb` is the user callback `processI2cMessage`, `tw` is `TW_STATUS` and
`dataIn` the value of `TWDR` on entry. -/
def slaveIsr (cb : Callback) (tw dataIn : Nat) (st : SlaveState) : SlaveState :=
  if tw = TW_ST_SLA_ACK ∨ tw = TW_ST_ARB_LOST_SLA_ACK then
    let st1 := { st with bufferIndex := 0, status := kI2cInProgress, busy := true }
    if st1.bufferIndex < st1.msgSize then
      { st1 with twdr := st1.buffer st1.bufferIndex,
                 bufferIndex := st1.bufferIndex + 1, control := .transmitByte }
    else
      { st1 with twdr := 0xFF, control := .transmitByte }
  else if tw = TW_ST_DATA_ACK then
    let st1 := { st with status := kI2cInProgress, busy := true }
    if st1.bufferIndex < st1.msgSize then
      { st1 with twdr := st1.buffer st1.bufferIndex,
                 bufferIndex := st1.bufferIndex + 1, control := .transmitByte }
    else
      { st1 with twdr := 0xFF, control := .transmitByte }
  else if tw = TW_ST_DATA_NACK then
    if st.bufferIndex = st.msgSize then
      { st with status := kI2cCompletedOk, busy := false, control := .standby }
    else
      { st with status := kI2cTxPartial, busy := false, control := .standby }
  else if tw = TW_SR_GCALL_ACK ∨ tw = TW_SR_ARB_LOST_GCALL_ACK then
    { st with bufferIndex := 0, busy := true, status := kI2cInProgress,
              control := .standby }
  else if tw = TW_SR_SLA_ACK ∨ tw = TW_SR_ARB_LOST_SLA_ACK then
    { st with bufferIndex := 0, busy := true, status := kI2cInProgress,
              control := .standby }
  else if tw = TW_SR_DATA_ACK ∨ tw = TW_SR_GCALL_DATA_ACK then
    let st1 := { st with buffer := Function.update st.buffer st.bufferIndex dataIn,
                         bufferIndex := (st.bufferIndex + 1) % 256 }
    if st1.bufferIndex < kI2cBufferSize - 1 then
      { st1 with control := .getNextByteWithACK }
    else
      { st1 with control := .getNextByteWithNACK }
  else if tw = TW_SR_STOP then
    let r := cb st.buffer st.bufferIndex
    let st1 := { st with buffer := r.1, msgSize := r.2, busy := false }
    if st1.status = kI2cInProgress then
      { st1 with status := kI2cCompletedOk, control := .standby }
    else
      { st1 with control := .standby }
  else
    { st with busy := false, status := tw ||| kI2cError, control := .standby }

/-- Fold the slave interrupt handler over a list of `(Nat, TWDR-in)`
hardware events, in order of arrival. -/
def runSlave (cb : Callback) (events : List (Nat × Nat)) (st : SlaveState) :
    SlaveState :=
  events.foldl (fun s e => slaveIsr cb e.1 e.2 s) st

/-- A trivial `processI2cMessage` implementation that leaves the buffer in
place and asks to transmit back exactly as many bytes as were received, so
that the `gI2cMsgSize` left by a stop event records the length the callback
was invoked with. -/
def cbEcho : Callback := fun buf len => (buf, len)

/-- The hardware events produced by a master that writes exactly
`kI2cBufferSize = 32` bytes (values `1..32`) to this slave and then issues a
stop: the slave ACKs the address and the first 31 data bytes (events
`TW_SR_DATA_ACK`), answers the 32nd byte with the NACK it scheduled after
byte 31, so that byte arrives as `TW_SR_DATA_NACK`, and then the stop
condition arrives. -/
def c2Trace : List (Nat × Nat) :=
  (TW_SR_SLA_ACK, 0) :: (List.range 31).map (fun i => (TW_SR_DATA_ACK, i + 1))
    ++ [(TW_SR_DATA_NACK, 32), (TW_SR_STOP, 0)]

end I2cSlave

namespace I2cMaster

/-- The state after `I2cMaster::start(...)`: engine idle with an empty queue
and an all-zero caller memory. -/
def initialMaster : MasterState :=
  { buffer := initialBuffer, mem := fun _ => 0 }

/-- The common body of every `writeAsync`/`readAsync` variant: `push` the
message and, when the push succeeded, kick the engine with `startI2c()`. -/
def submit (address txMode : Nat) (txData : Option (List Nat)) (txLen : Nat)
    (rxBuf rxLen rxCnt status : Nat) (st : MasterState) : Nat × MasterState :=
  let r := push address txMode txData txLen rxBuf rxLen rxCnt status st.buffer st.mem
  let st1 := { st with buffer := r.2.1, mem := r.2.2 }
  if r.1 = 0 then (r.1, startI2c st1) else (r.1, st1)

/-- Caller-cell address used for the status cell in concrete scenarios. -/
def stAddr : Nat := 1
/-- Caller-cell address used for the receive counter in concrete scenarios. -/
def cntAddr : Nat := 2
/-- Base address of the caller receive buffer in concrete scenarios. -/
def bufAddr : Nat := 10

/-- Scenario for the write-then-read claim: starting from the freshly
started engine, submit one `kI2cWriteRestartRead` transaction with payload
`txData`, receive capacity `rxLen`, and the concrete caller cells
`stAddr`/`cntAddr`/`bufAddr`. -/
def c1Start (address : Nat) (txData : List Nat) (rxLen : Nat) : MasterState :=
  (submit address kI2cWriteRestartRead (some txData) txData.length
    bufAddr rxLen cntAddr stAddr initialMaster).2

/-- The hardware events of a write-then-read transaction whose slave ACKs
the address and every one of the `txLen` payload bytes, then in the read
phase supplies the bytes `rxInit` (each ACKed by the master) followed by a
final byte `rxLast` answered with the master's NACK. -/
def c1Events (txLen : Nat) (rxInit : List Nat) (rxLast : Nat) : List (Nat × Nat) :=
  (TW_START, 0) :: (TW_MT_SLA_ACK, 0) :: List.replicate txLen (TW_MT_DATA_ACK, 0)
    ++ (TW_REP_START, 0) :: (TW_MR_SLA_ACK, 0)
      :: rxInit.map (fun b => (TW_MR_DATA_ACK, b))
    ++ [(TW_MR_DATA_NACK, rxLast)]

/-- The prefix of `c1Events` up to and including the interrupt that finds
the transmit payload exhausted (the step that must flip the transaction to
read mode and issue the repeated start). -/
def c1WritePhase (txLen : Nat) : List (Nat × Nat) :=
  (TW_START, 0) :: (TW_MT_SLA_ACK, 0) :: List.replicate txLen (TW_MT_DATA_ACK, 0)

/-- The memory left by the receive loop of the interrupt handler for the
concrete scenario cells: each step stores the received byte at
`bufAddr + *cntAddr` and then increments the counter cell (8-bit). -/
def rxWrites (m : Mem) : List Nat → Mem
  | [] => m
  | b :: bs =>
      rxWrites
        (Function.update (Function.update m (bufAddr + m cntAddr) b) cntAddr
          ((m cntAddr + 1) % 256)) bs

/-- Scenario for the address-NACK retry claim: starting from the freshly
started engine (with `I2C_MASTER_SLA_NACK_SPECIAL_HANDLING` enabled),
submit one single-byte write transaction with status cell at address 5. -/
def c3Init : MasterState :=
  (submit 0x40 kI2cWrite (some [0xAB]) 1 0 0 0 5 initialMaster).2

/-- `n` rounds of a slave that NACKs the address on every attempt: each
round is the start (or repeated start) interrupt followed by the
`TW_MT_SLA_NACK` interrupt for the NACKed address byte. -/
def c3Trace (n : Nat) : List (Nat × Nat) :=
  (List.replicate n [(TW_START, 0), (TW_MT_SLA_NACK, 0)]).flatten

/-- The state reached after one start/SLA-NACK round of the always-NACK
scenario; the engine cycles through this state forever. -/
def c3CycleState : MasterState :=
  masterIsr true TW_MT_SLA_NACK 0 (masterIsr true TW_START 0 c3Init)

/-- Slot `i` currently holds a queued, not-yet-reclaimed transaction:
`i = (mCurrentMsg + k) % kMaxNbrMsgs` for some `k < mNbrMsgs`. -/
def occupied (b : BufferI2cTx) (i : Nat) : Prop :=
  ∃ k, k < b.nbrMsgs ∧ i = (b.currentMsg + k) % kMaxNbrMsgs

instance (b : BufferI2cTx) (i : Nat) : Decidable (occupied b i) := by
  unfold occupied; infer_instance

/-- The occupied slot indices in service order, front of the queue first. -/
def queueList (b : BufferI2cTx) : List Nat :=
  (List.range b.nbrMsgs).map (fun k => (b.currentMsg + k) % kMaxNbrMsgs)

/-- Position of a status value in the lifecycle
`kI2cNotStarted → kI2cInProgress → terminal`: any value other than the two
pending codes (so `kI2cCompletedOk`, or any `kI2cError`-tagged value) is
terminal. -/
def statusRank (s : Nat) : Nat :=
  if s = kI2cNotStarted then 0 else if s = kI2cInProgress then 1 else 2

/-- A status value the engine may still act on (not terminal). -/
def pendingStatus (s : Nat) : Prop := s = kI2cNotStarted ∨ s = kI2cInProgress

instance (s : Nat) : Decidable (pendingStatus s) := by
  unfold pendingStatus; infer_instance

/-- Invariant of the engine state between interrupt-handler invocations (in
the default build, `special = false`):
* ring-buffer bookkeeping is in range;
* every occupied slot's status cell still holds a pending value (a terminal
  value is only ever written in the same interrupt invocation that reclaims
  the slot);
* every occupied slot's receive counter cell holds a byte;
* the caller cells of occupied slots do not alias: status cells are pairwise
  distinct and no status cell coincides with a receive counter cell or lies
  inside a receive buffer region. -/
def masterInv (st : MasterState) : Prop :=
  st.buffer.nbrMsgs ≤ kMaxNbrMsgs ∧
  st.buffer.currentMsg < kMaxNbrMsgs ∧
  (∀ i, i < kMaxNbrMsgs → occupied st.buffer i →
    pendingStatus (st.mem (st.buffer.slots i).statusPtr)) ∧
  (∀ i, i < kMaxNbrMsgs → occupied st.buffer i →
    st.mem (st.buffer.slots i).rxCntPtr < 256) ∧
  (∀ i, i < kMaxNbrMsgs → occupied st.buffer i →
    ∀ j, j < kMaxNbrMsgs → occupied st.buffer j →
      (i ≠ j → (st.buffer.slots i).statusPtr ≠ (st.buffer.slots j).statusPtr) ∧
      (st.buffer.slots i).statusPtr ≠ (st.buffer.slots j).rxCntPtr ∧
      ∀ k, k < 256 → (st.buffer.slots i).statusPtr ≠ (st.buffer.slots j).rxBufPtr + k)

set_option synthInstance.maxSize 2000 in
instance (st : MasterState) : Decidable (masterInv st) := by
  unfold masterInv occupied pendingStatus; infer_instance

/-- The hardware status values that have their own `case` label in the
Master `ISR(TWI_vect)` switch; any other value of `TW_STATUS` lands in the
`default` (unrecognized-status) branch. -/
def masterHandledCodes : List Nat :=
  [TW_START, TW_REP_START, TW_MT_SLA_ACK, TW_MT_DATA_ACK, TW_MR_SLA_ACK,
   TW_MR_DATA_ACK, TW_MR_DATA_NACK, TW_MT_ARB_LOST, TW_MT_SLA_NACK,
   TW_MR_SLA_NACK, TW_MT_DATA_NACK, TW_NO_INFO]

/-- The dual-range result encoding of the synchronous facade: for submission
error `e` and final bus status `fs`, the returned scalar `v` is the positive
submission error code when the enqueue failed, and otherwise minus the final
bus status (so `0` exactly on a fully successful transaction). -/
def SyncSpec (e : Nat) (v : Int) (fs : Nat) : Prop :=
  (e ≠ kI2cNoError → v = (e : Int) ∧ 0 < v) ∧
  (e = kI2cNoError →
    v = -(fs : Int) ∧ v ≤ 0 ∧ v.natAbs = fs ∧ (fs = kI2cCompletedOk → v = 0))

instance (e : Nat) (v : Int) (fs : Nat) : Decidable (SyncSpec e v fs) := by
  unfold SyncSpec; infer_instance

/-- Concrete queue used in witnesses: the empty queue after one successful
push of a two-byte write to address `0x50` with status cell at address 5. -/
def c5DemoBuffer : BufferI2cTx :=
  (push 0x50 kI2cWrite (some [1, 2]) 2 0 0 0 5 initialBuffer (fun _ => 0)).2.1

/-- The engine state at the end of the write phase of the write-then-read
scenario (the interrupt that finds the payload exhausted has just run). -/
def c1Mid (address : Nat) (txData : List Nat) (rxLen : Nat) : MasterState :=
  runMaster false (c1WritePhase txData.length) (c1Start address txData rxLen)

/-- The engine state after the complete write-then-read event trace. -/
def c1Final (address : Nat) (txData rxInit : List Nat) (rxLast : Nat) : MasterState :=
  runMaster false (c1Events txData.length rxInit rxLast)
    (c1Start address txData (rxInit.length + 1))

/-- What one interrupt-handler invocation may do to the status cells of the
queued transactions, relating the pre-state `st` to the post-state `st'`:
* the between-interrupts invariant `masterInv` still holds;
* the status cell of every queued transaction moves monotonically along
  `kI2cNotStarted → kI2cInProgress → terminal` (its `statusRank` never
  decreases);
* a terminal value appears in a queued transaction's status cell only in the
  very invocation that reclaims that transaction's slot;
* the handler writes memory only through the current transaction's three
  registered regions (its status cell, its receive-counter cell, and its
  receive buffer), so it never stores to the status cell of a transaction
  whose slot was already reclaimed. -/
def statusEvolutionOk (st st' : MasterState) : Prop :=
  masterInv st' ∧
  (∀ i, i < kMaxNbrMsgs → occupied st.buffer i →
    statusRank (st.mem ((st.buffer.slots i).statusPtr)) ≤
      statusRank (st'.mem ((st.buffer.slots i).statusPtr))) ∧
  (∀ i, i < kMaxNbrMsgs → occupied st.buffer i →
    ¬ pendingStatus (st'.mem ((st.buffer.slots i).statusPtr)) →
    ¬ occupied st'.buffer i) ∧
  (∀ a, a ≠ (st.buffer.slots st.buffer.currentMsg).statusPtr →
    a ≠ (st.buffer.slots st.buffer.currentMsg).rxCntPtr →
    (∀ k, k < 256 → a ≠ (st.buffer.slots st.buffer.currentMsg).rxBufPtr + k) →
    st'.mem a = st.mem a)

/-- Concrete engine state used in witnesses: one single-byte write to address
`0x21` queued (status cell at address 3, no receive storage registered in the
sense that the receive region starts at 10 with counter cell 2), busy, start
requested. -/
def c4DemoState : MasterState :=
  { buffer :=
      { slots := Function.update (fun _ => ({} : Slot)) 0
          { address := 0x21
            txMode := kI2cWrite
            txData := fun _ => 5
            txBufferSize := 1
            rxBufPtr := 10
            rxBufferSize := 1
            rxCntPtr := 2
            statusPtr := 3 }
        currentByte := 0
        nbrMsgs := 1
        currentMsg := 0 }
    mem := Function.update (fun _ => 0) 3 kI2cNotStarted
    busy := true
    retries := 0
    twdr := 0xFF
    control := .sendStart }

end I2cMaster

/-!
## Theorems
-/

namespace I2cMaster

/-- C6: a rejected submission leaves the queue unchanged — `push` on a full
queue returns `kI2cErrTxBufferFull`, `push` of an over-long payload returns
`kI2cErrMsgTooLong`, and in every rejection case the queue (occupancy,
indices and slot contents) and the caller memory (in particular the caller's
status cell) are returned unmodified. -/
theorem c6_rejected_push_is_pure (address txMode : Nat) (txData : Option (List Nat))
    (txLen rxBuf rxLen rxCnt status : Nat) (b : BufferI2cTx) (m : Mem) :
    (kMaxNbrMsgs ≤ b.nbrMsgs →
      push address txMode txData txLen rxBuf rxLen rxCnt status b m =
        (kI2cErrTxBufferFull, b, m)) ∧
    (b.nbrMsgs < kMaxNbrMsgs → kMaxMsgLen < txLen →
      push address txMode txData txLen rxBuf rxLen rxCnt status b m =
        (kI2cErrMsgTooLong, b, m)) ∧
    ((push address txMode txData txLen rxBuf rxLen rxCnt status b m).1 ≠ kI2cNoError →
      (push address txMode txData txLen rxBuf rxLen rxCnt status b m).2.1 = b ∧
      (push address txMode txData txLen rxBuf rxLen rxCnt status b m).2.2 = m) := by
  refine ⟨fun h => ?_, fun h1 h2 => ?_, fun h => ?_⟩
  · unfold push
    rw [if_pos h]
  · unfold push
    rw [if_neg (by omega), if_pos h2]
  · unfold push at h ⊢
    split_ifs at h ⊢ <;> simp_all

/-- C6 witness: a push onto an already-full queue (three messages queued) is
rejected with `kI2cErrTxBufferFull` and returns the queue and memory
unchanged. -/
theorem c6_witness :
    kMaxNbrMsgs ≤ ({ initialBuffer with nbrMsgs := 3 } : BufferI2cTx).nbrMsgs ∧
    push 0x50 kI2cWrite (some [1]) 1 0 0 0 5
        { initialBuffer with nbrMsgs := 3 } (fun _ => 0) =
      (kI2cErrTxBufferFull, { initialBuffer with nbrMsgs := 3 }, fun _ => 0) := by
  exact ⟨by decide,
    (c6_rejected_push_is_pure 0x50 kI2cWrite (some [1]) 1 0 0 0 5
      { initialBuffer with nbrMsgs := 3 } (fun _ => 0)).1 (by decide)⟩

/-- C10: the claim states that a successful write-only enqueue (every
`writeAsync` variant passes null receive arguments) performs no store
through the null receive-counter pointer.  The code violates this: `push`
executes `*rxCnt = 0;` before its null checks, so the one-register
`writeAsync` clobbers the caller memory at the null address `0` — the cell
at address `0` held `7` before the call and `0` after it, even though the
enqueue succeeds. -/
theorem c10_push_stores_through_null_rxcnt :
    (writeAsyncReg 0x50 0x10 5 initialBuffer (fun _ => 7)).1 = kI2cNoError ∧
    (writeAsyncReg 0x50 0x10 5 initialBuffer (fun _ => 7)).2.2 0 = 0 ∧
    ((fun _ => 7 : Mem) 0 = 7 ∧
      (writeAsyncReg 0x50 0x10 5 initialBuffer (fun _ => 7)).2.2 0 ≠ 7) := by
  decide

end I2cMaster

namespace I2cSlave

/-- C2: the claim states that a master write of exactly
`kI2cBufferSize = 32` bytes ends with `kI2cCompletedOk` and the callback
invoked with `receivedLength = 32`, and that one extra byte yields
`kI2cRxOverflow`.  The code violates this: the slave NACKs the 32nd byte,
which therefore arrives as `TW_SR_DATA_NACK` and falls into the error
branch, so the byte is never stored, the status becomes
`TW_SR_DATA_NACK | kI2cError = 0x89`, the callback fires with only 31
bytes, and `kI2cRxOverflow` is not produced. -/
theorem c2_exact_capacity_write_fails :
    (runSlave cbEcho c2Trace startState).status = 0x89 ∧
    (runSlave cbEcho c2Trace startState).status ≠ kI2cCompletedOk ∧
    (runSlave cbEcho c2Trace startState).status ≠ kI2cRxOverflow ∧
    (runSlave cbEcho c2Trace startState).msgSize = 31 ∧
    (runSlave cbEcho c2Trace startState).msgSize ≠ kI2cBufferSize := by
  decide

/-- C9: during slave transmit, once the response bytes are exhausted
(`gI2cBufferIndex ≥ gI2cMsgSize`) every further `TW_ST_DATA_ACK` interrupt
loads the filler byte `0xFF` into `TWDR` without advancing the index; a
`TW_ST_DATA_NACK` with the index short of the response length leaves
`kI2cTxPartial`, while a `TW_ST_DATA_NACK` arriving exactly at the response
length leaves `kI2cCompletedOk`; both NACK outcomes clear the busy flag. -/
theorem c9_slave_transmit_filler_and_nack (cb : Callback) (d : Nat) (st : SlaveState) :
    (st.msgSize ≤ st.bufferIndex →
      (slaveIsr cb TW_ST_DATA_ACK d st).twdr = 0xFF ∧
      (slaveIsr cb TW_ST_DATA_ACK d st).bufferIndex = st.bufferIndex ∧
      (slaveIsr cb TW_ST_DATA_ACK d st).control = .transmitByte) ∧
    (st.bufferIndex < st.msgSize →
      (slaveIsr cb TW_ST_DATA_NACK d st).status = kI2cTxPartial ∧
      (slaveIsr cb TW_ST_DATA_NACK d st).busy = false) ∧
    (st.bufferIndex = st.msgSize →
      (slaveIsr cb TW_ST_DATA_NACK d st).status = kI2cCompletedOk ∧
      (slaveIsr cb TW_ST_DATA_NACK d st).busy = false) := by
  refine ⟨fun h => ?_, fun h => ?_, fun h => ?_⟩
  · simp only [slaveIsr, TW_ST_DATA_ACK, TW_ST_SLA_ACK, TW_ST_ARB_LOST_SLA_ACK,
      TW_ST_DATA_NACK]
    norm_num
    split_ifs with h1
    · exact absurd h1 (not_lt.mpr h)
    · exact ⟨rfl, rfl, rfl⟩
  · simp only [slaveIsr, TW_ST_DATA_NACK, TW_ST_SLA_ACK, TW_ST_ARB_LOST_SLA_ACK,
      TW_ST_DATA_ACK]
    norm_num
    split_ifs with h1
    · exact absurd h1 (Nat.ne_of_lt h)
    · exact ⟨rfl, rfl⟩
  · simp only [slaveIsr, TW_ST_DATA_NACK, TW_ST_SLA_ACK, TW_ST_ARB_LOST_SLA_ACK,
      TW_ST_DATA_ACK]
    norm_num
    split_ifs
    · exact ⟨rfl, rfl⟩

/-- C9 witness: a slave mid-transmission with a 4-byte response and index 2
takes `kI2cTxPartial` on an early NACK; with index 4 (response exhausted) a
further data-ACK interrupt sends the `0xFF` filler, and a NACK there leaves
`kI2cCompletedOk`. -/
theorem c9_witness :
    (({ startState with msgSize := 4, bufferIndex := 4 } : SlaveState).msgSize ≤ 4 ∧
      (slaveIsr cbEcho TW_ST_DATA_ACK 0
        { startState with msgSize := 4, bufferIndex := 4 }).twdr = 0xFF) ∧
    ((2 : Nat) < 4 ∧
      (slaveIsr cbEcho TW_ST_DATA_NACK 0
        { startState with msgSize := 4, bufferIndex := 2 }).status = kI2cTxPartial) ∧
    (slaveIsr cbEcho TW_ST_DATA_NACK 0
        { startState with msgSize := 4, bufferIndex := 4 }).status = kI2cCompletedOk := by
  refine ⟨⟨by decide, ?_⟩, ⟨by decide, ?_⟩, ?_⟩
  · exact ((c9_slave_transmit_filler_and_nack cbEcho 0
      { startState with msgSize := 4, bufferIndex := 4 }).1 (by decide)).1
  · exact ((c9_slave_transmit_filler_and_nack cbEcho 0
      { startState with msgSize := 4, bufferIndex := 2 }).2.1 (by decide)).1
  · exact ((c9_slave_transmit_filler_and_nack cbEcho 0
      { startState with msgSize := 4, bufferIndex := 4 }).2.2 (by decide)).1

end I2cSlave

namespace I2cMaster

/-- Reclaiming the only queued message: occupancy drops to zero, the current
slot index stays, the byte cursor resets, and no further message is
reported. -/
theorem done_last (b : BufferI2cTx) (h : b.nbrMsgs = 1) :
    doneWithCurrentMessage b = (false, { b with nbrMsgs := 0, currentByte := 0 }) := by
  simp only [doneWithCurrentMessage, h]
  norm_num

/-- Reclaiming the current message while more are queued: occupancy drops by
one, the current slot index advances cyclically, the byte cursor resets, and
a further message is reported. -/
theorem done_more (b : BufferI2cTx) (h1 : 2 ≤ b.nbrMsgs) (h2 : b.nbrMsgs < 256)
    (h3 : b.currentMsg < kMaxNbrMsgs) :
    doneWithCurrentMessage b =
      (true,
        { b with
            nbrMsgs := b.nbrMsgs - 1
            currentMsg := (b.currentMsg + 1) % kMaxNbrMsgs
            currentByte := 0 }) := by
  simp only [doneWithCurrentMessage]
  have hn : (b.nbrMsgs + 255) % 256 = b.nbrMsgs - 1 := by omega
  rw [hn, if_pos (by omega : b.nbrMsgs - 1 ≠ 0)]
  have hc : (if b.currentMsg + 1 ≥ kMaxNbrMsgs then b.currentMsg + 1 - kMaxNbrMsgs
      else b.currentMsg + 1) = (b.currentMsg + 1) % kMaxNbrMsgs := by
    simp only [kMaxNbrMsgs] at h3 ⊢
    split_ifs <;> omega
  rw [hc]

/-- The start / repeated-start branch of the Master interrupt handler. -/
theorem isr_start (s : Bool) (tw : Nat) (htw : tw = TW_START ∨ tw = TW_REP_START)
    (d : Nat) (st : MasterState) :
    masterIsr s tw d st =
      { st with
          twdr :=
            if getCurrentTxMode st.buffer &&& kI2cWriteMask ≠ 0 then
              SLA_W (getCurrentAddress st.buffer)
            else
              SLA_R (getCurrentAddress st.buffer)
          mem := Function.update st.mem (getCurrentStatus st.buffer) kI2cInProgress
          retries := if s then 0 else st.retries
          busy := true
          control := .sendNextByte } := by
  rcases htw with rfl | rfl <;> rfl

/-- The address-ACK / data-ACK branch of the Master interrupt handler in
transmit mode. -/
theorem isr_mt_ack (s : Bool) (tw : Nat)
    (htw : tw = TW_MT_SLA_ACK ∨ tw = TW_MT_DATA_ACK) (d : Nat) (st : MasterState) :
    masterIsr s tw d st =
      (match (getCurrentByte st.buffer).1 with
      | some byte =>
          { st with buffer := (getCurrentByte st.buffer).2, twdr := byte,
                    control := .sendNextByte }
      | none =>
          if getCurrentTxMode (getCurrentByte st.buffer).2 = kI2cWriteRestartRead then
            { st with buffer := setCurrentTxMode (getCurrentByte st.buffer).2 kI2cRead,
                      control := .sendRestart }
          else
            if (doneWithCurrentMessage (getCurrentByte st.buffer).2).1 then
              { st with buffer := (doneWithCurrentMessage (getCurrentByte st.buffer).2).2,
                        mem := Function.update st.mem
                          (getCurrentStatus (getCurrentByte st.buffer).2) kI2cCompletedOk,
                        control := .sendRestart }
            else
              { st with buffer := (doneWithCurrentMessage (getCurrentByte st.buffer).2).2,
                        mem := Function.update st.mem
                          (getCurrentStatus (getCurrentByte st.buffer).2) kI2cCompletedOk,
                        busy := false, control := .sendStop }) := by
  rcases htw with rfl | rfl <;> rfl

/-- The SLA+R-ACK branch of the Master interrupt handler. -/
theorem isr_mr_sla_ack (s : Bool) (d : Nat) (st : MasterState) :
    masterIsr s TW_MR_SLA_ACK d st =
      (if getCurrentRxBufferSize st.buffer > 1 then
        { st with control := .getNextByteWithACK }
      else
        { st with control := .getNextByteWithNACK }) := rfl

/-- The data-received-with-ACK branch of the Master interrupt handler. -/
theorem isr_mr_data_ack (s : Bool) (d : Nat) (st : MasterState) :
    masterIsr s TW_MR_DATA_ACK d st =
      (let n := getCurrentRxBufferCtr st.buffer
      let m1 := Function.update st.mem (getCurrentRxBufferPtr st.buffer + st.mem n) d
      let m2 := Function.update m1 n ((m1 n + 1) % 256)
      if m2 n < (getCurrentRxBufferSize st.buffer + 255) % 256 then
        { st with mem := m2, control := .getNextByteWithACK }
      else
        { st with mem := m2, control := .getNextByteWithNACK }) := rfl

/-- The data-received-with-NACK (final byte) branch of the Master interrupt
handler. -/
theorem isr_mr_data_nack (s : Bool) (d : Nat) (st : MasterState) :
    masterIsr s TW_MR_DATA_NACK d st =
      (let n := getCurrentRxBufferCtr st.buffer
      let m1 := Function.update st.mem (getCurrentRxBufferPtr st.buffer + st.mem n) d
      let m2 := Function.update m1 n ((m1 n + 1) % 256)
      let m3 := Function.update m2 (getCurrentStatus st.buffer) kI2cCompletedOk
      if (doneWithCurrentMessage st.buffer).1 then
        { st with buffer := (doneWithCurrentMessage st.buffer).2, mem := m3,
                  control := .sendRestart }
      else
        { st with buffer := (doneWithCurrentMessage st.buffer).2, mem := m3,
                  busy := false, control := .sendStop }) := rfl

/-- The arbitration-lost branch of the Master interrupt handler. -/
theorem isr_arb_lost (s : Bool) (d : Nat) (st : MasterState) :
    masterIsr s TW_MT_ARB_LOST d st = { st with control := .sendRestart } := rfl

/-- The SLA-NACK branch of the Master interrupt handler under
`I2C_MASTER_SLA_NACK_SPECIAL_HANDLING`. -/
theorem isr_sla_nack_special (tw : Nat)
    (htw : tw = TW_MT_SLA_NACK ∨ tw = TW_MR_SLA_NACK) (d : Nat) (st : MasterState) :
    masterIsr true tw d st =
      (if st.retries < 3 then
        { st with retries := st.retries + 1, control := .sendStart }
      else
        { st with
            retries := 0
            mem := Function.update st.mem (getCurrentStatus st.buffer) (tw ||| kI2cError)
            busy := false
            control := .sendStop }) := by
  rcases htw with rfl | rfl <;> rfl

/-- Any `TW_STATUS` value without its own recognized branch (in the default
build, `special = false`) lands in the error branch of the Master interrupt
handler. -/
theorem isr_unhandled (tw : Nat) (d : Nat) (st : MasterState)
    (h1 : tw ≠ TW_START) (h2 : tw ≠ TW_REP_START) (h3 : tw ≠ TW_MT_SLA_ACK)
    (h4 : tw ≠ TW_MT_DATA_ACK) (h5 : tw ≠ TW_MR_SLA_ACK) (h6 : tw ≠ TW_MR_DATA_ACK)
    (h7 : tw ≠ TW_MR_DATA_NACK) (h8 : tw ≠ TW_MT_ARB_LOST) :
    masterIsr false tw d st =
      (if (doneWithCurrentMessage st.buffer).1 then
        { st with
            buffer := (doneWithCurrentMessage st.buffer).2
            mem := Function.update st.mem (getCurrentStatus st.buffer) (tw ||| kI2cError)
            control := .sendStopAndStart }
      else
        { st with
            buffer := (doneWithCurrentMessage st.buffer).2
            mem := Function.update st.mem (getCurrentStatus st.buffer) (tw ||| kI2cError)
            busy := false
            control := .sendStop }) := by
  unfold masterIsr
  rw [if_neg (not_or.mpr ⟨h1, h2⟩), if_neg (not_or.mpr ⟨h3, h4⟩), if_neg h5,
    if_neg h6, if_neg h7, if_neg h8, if_neg (by simp)]

end I2cMaster

namespace I2cMaster

/-- C8: on a bus error or an unrecognized hardware status the Master
interrupt handler (default build) writes `TW_STATUS | kI2cError` into the
current transaction's status cell, and then either requests a stop followed
by a start for the next transaction while staying busy (when more
transactions remain queued) or releases the bus with a stop and clears the
busy flag (when the queue becomes empty). -/
theorem c8_error_marks_and_releases_or_restarts (tw d : Nat) (st : MasterState)
    (htw : tw = TW_BUS_ERROR ∨ tw ∉ masterHandledCodes)
    (hn1 : 1 ≤ st.buffer.nbrMsgs) (hn2 : st.buffer.nbrMsgs < 256)
    (hc : st.buffer.currentMsg < kMaxNbrMsgs) :
    (masterIsr false tw d st).mem (getCurrentStatus st.buffer) = (tw ||| kI2cError) ∧
    (2 ≤ st.buffer.nbrMsgs →
      (masterIsr false tw d st).control = .sendStopAndStart ∧
      (masterIsr false tw d st).busy = st.busy ∧
      (masterIsr false tw d st).buffer.nbrMsgs = st.buffer.nbrMsgs - 1 ∧
      (masterIsr false tw d st).buffer.currentMsg =
        (st.buffer.currentMsg + 1) % kMaxNbrMsgs) ∧
    (st.buffer.nbrMsgs = 1 →
      (masterIsr false tw d st).control = .sendStop ∧
      (masterIsr false tw d st).busy = false ∧
      (masterIsr false tw d st).buffer.nbrMsgs = 0) := by
  have hne : tw ≠ TW_START ∧ tw ≠ TW_REP_START ∧ tw ≠ TW_MT_SLA_ACK ∧
      tw ≠ TW_MT_DATA_ACK ∧ tw ≠ TW_MR_SLA_ACK ∧ tw ≠ TW_MR_DATA_ACK ∧
      tw ≠ TW_MR_DATA_NACK ∧ tw ≠ TW_MT_ARB_LOST := by
    rcases htw with rfl | h
    · refine ⟨by decide, by decide, by decide, by decide, by decide, by decide,
        by decide, by decide⟩
    · simp only [masterHandledCodes, List.mem_cons, List.not_mem_nil, or_false,
        not_or] at h
      exact ⟨h.1, h.2.1, h.2.2.1, h.2.2.2.1, h.2.2.2.2.1, h.2.2.2.2.2.1,
        h.2.2.2.2.2.2.1, h.2.2.2.2.2.2.2.1⟩
  obtain ⟨e1, e2, e3, e4, e5, e6, e7, e8⟩ := hne
  rw [isr_unhandled tw d st e1 e2 e3 e4 e5 e6 e7 e8]
  by_cases h2 : 2 ≤ st.buffer.nbrMsgs
  · rw [done_more st.buffer h2 hn2 hc]
    refine ⟨Function.update_same _ _ _, fun _ => ⟨rfl, rfl, rfl, rfl⟩,
      fun hone => absurd hone (by omega)⟩
  · have hone : st.buffer.nbrMsgs = 1 := by omega
    rw [done_last st.buffer hone]
    exact ⟨Function.update_same _ _ _, fun hmore => absurd hmore (by omega),
      fun _ => ⟨rfl, rfl, rfl⟩⟩

/-- C8 witness: a bus error interrupt with a single queued message marks the
status cell `TW_BUS_ERROR | kI2cError = 1` and releases the bus with a stop. -/
theorem c8_witness :
    ((TW_BUS_ERROR = TW_BUS_ERROR ∨ TW_BUS_ERROR ∉ masterHandledCodes) ∧
      1 ≤ (c3Init.buffer).nbrMsgs ∧ (c3Init.buffer).nbrMsgs < 256 ∧
      (c3Init.buffer).currentMsg < kMaxNbrMsgs) ∧
    (masterIsr false TW_BUS_ERROR 0 c3Init).mem (getCurrentStatus c3Init.buffer) =
      (TW_BUS_ERROR ||| kI2cError) ∧
    (masterIsr false TW_BUS_ERROR 0 c3Init).control = .sendStop ∧
    (masterIsr false TW_BUS_ERROR 0 c3Init).busy = false := by
  have h := c8_error_marks_and_releases_or_restarts TW_BUS_ERROR 0 c3Init
    (Or.inl rfl) (by decide) (by decide) (by decide)
  exact ⟨⟨Or.inl rfl, by decide, by decide, by decide⟩, h.1,
    (h.2.2 (by decide)).1, (h.2.2 (by decide)).2.1⟩

/-- The dual-range encoding, directly from the shape of the synchronous
wrappers: `syncReturn e fs` is the positive submission error when `e ≠ 0`
and minus the final bus status otherwise. -/
theorem syncSpec_syncReturn (e fs : Nat) : SyncSpec e (syncReturn e fs) fs := by
  unfold SyncSpec syncReturn kI2cNoError
  constructor
  · intro he
    rw [if_pos he]
    exact ⟨rfl, by exact_mod_cast Nat.pos_of_ne_zero he⟩
  · intro he
    rw [if_neg (by simp [he])]
    refine ⟨rfl, neg_nonpos.mpr (Int.ofNat_nonneg fs), ?_, fun hok => ?_⟩
    · rw [Int.natAbs_neg, Int.natAbs_ofNat]
    · simp [kI2cCompletedOk] at hok
      simp [hok]

/-- C7: every synchronous facade call (each `writeSync`/`readSync` overload)
submits through the corresponding asynchronous call and, once the busy-wait
observes a final status outside `{kI2cNotStarted, kI2cInProgress}`, returns
the single dual-range scalar: a positive value equal to the submission error
code when the enqueue failed, otherwise minus the final bus status — hence
`0` exactly on full success and a negative value whose magnitude is the
final bus-status value otherwise. -/
theorem c7_sync_facade_dual_range (address registerAddress data numberBytes
    destination bytesRead status fs : Nat) (strData bufData : List Nat)
    (b : BufferI2cTx) (m : Mem)
    (hfs1 : fs ≠ kI2cNotStarted) (hfs2 : fs ≠ kI2cInProgress) :
    SyncSpec (writeAsyncReg address registerAddress status b m).1
      (writeSyncReg address registerAddress status b m fs).1 fs ∧
    SyncSpec (writeAsyncRegData address registerAddress data status b m).1
      (writeSyncRegData address registerAddress data status b m fs).1 fs ∧
    SyncSpec (writeAsyncStr address registerAddress strData status b m).1
      (writeSyncStr address registerAddress strData status b m fs).1 fs ∧
    SyncSpec (writeAsyncBuf address registerAddress bufData numberBytes status b m).1
      (writeSyncBuf address registerAddress bufData numberBytes status b m fs).1 fs ∧
    SyncSpec (readAsyncBuf address numberBytes destination bytesRead status b m).1
      (readSyncBuf address numberBytes destination bytesRead status b m fs).1 fs ∧
    SyncSpec (readAsyncReg address registerAddress numberBytes destination
        bytesRead status b m).1
      (readSyncReg address registerAddress numberBytes destination bytesRead
        status b m fs).1 fs := by
  exact ⟨syncSpec_syncReturn _ fs, syncSpec_syncReturn _ fs, syncSpec_syncReturn _ fs,
    syncSpec_syncReturn _ fs, syncSpec_syncReturn _ fs, syncSpec_syncReturn _ fs⟩

/-- C7 witness: the one-register `writeSync` with an empty queue and final
status `kI2cCompletedOk` satisfies the dual-range specification at concrete
inputs. -/
theorem c7_witness :
    (kI2cCompletedOk ≠ kI2cNotStarted ∧ kI2cCompletedOk ≠ kI2cInProgress) ∧
    SyncSpec (writeAsyncReg 0x50 0x10 5 initialBuffer (fun _ => 0)).1
      (writeSyncReg 0x50 0x10 5 initialBuffer (fun _ => 0) kI2cCompletedOk).1
      kI2cCompletedOk := by
  exact ⟨⟨by decide, by decide⟩,
    (c7_sync_facade_dual_range 0x50 0x10 0 0 0 0 5 kI2cCompletedOk [] []
      initialBuffer (fun _ => 0) (by decide) (by decide)).1⟩

end I2cMaster

namespace I2cMaster

/-- On the success path (every validation passed), `push` copies the message
into slot `(mCurrentMsg + mNbrMsgs) % kMaxNbrMsgs`, increments the occupancy,
zeroes the caller's receive counter and sets the caller's status cell to
`kI2cNotStarted`. -/
theorem push_eq_of_ok (address txMode : Nat) (txData : Option (List Nat))
    (txLen rxBuf rxLen rxCnt status : Nat) (b : BufferI2cTx) (m : Mem)
    (h1 : b.nbrMsgs < kMaxNbrMsgs) (h2 : txLen ≤ kMaxMsgLen) (h3 : status ≠ 0)
    (h4 : ¬((txMode = kI2cWrite ∨ txMode = kI2cWriteRestartRead) ∧
      (txData = none ∨ txLen = 0)))
    (h5 : ¬((txMode = kI2cRead ∨ txMode = kI2cWriteRestartRead) ∧
      (rxBuf = 0 ∨ rxLen = 0 ∨ rxCnt = 0))) :
    push address txMode txData txLen rxBuf rxLen rxCnt status b m =
      (kI2cNoError,
        { b with
            slots := Function.update b.slots ((b.currentMsg + b.nbrMsgs) % kMaxNbrMsgs)
              { address := address
                txMode := txMode
                txBufferSize := if txData ≠ none ∧ txLen ≠ 0 then txLen else 0
                txData := copyTxData txData txLen
                  (b.slots ((b.currentMsg + b.nbrMsgs) % kMaxNbrMsgs)).txData
                rxBufPtr := rxBuf
                rxBufferSize := if rxLen ≠ 0 ∧ rxBuf ≠ 0 ∧ rxCnt ≠ 0 then rxLen else 0
                rxCntPtr := rxCnt
                statusPtr := status }
            nbrMsgs := b.nbrMsgs + 1 },
        Function.update (Function.update m rxCnt 0) status kI2cNotStarted) := by
  unfold push
  rw [if_neg (by omega), if_neg (by omega), if_neg h3, if_neg h4, if_neg h5]

/-- Inversion of a successful `push`: the five validation conditions held. -/
theorem push_ok_inv (address txMode : Nat) (txData : Option (List Nat))
    (txLen rxBuf rxLen rxCnt status : Nat) (b : BufferI2cTx) (m : Mem)
    (h : (push address txMode txData txLen rxBuf rxLen rxCnt status b m).1 = kI2cNoError) :
    b.nbrMsgs < kMaxNbrMsgs ∧ txLen ≤ kMaxMsgLen ∧ status ≠ 0 ∧
    ¬((txMode = kI2cWrite ∨ txMode = kI2cWriteRestartRead) ∧
      (txData = none ∨ txLen = 0)) ∧
    ¬((txMode = kI2cRead ∨ txMode = kI2cWriteRestartRead) ∧
      (rxBuf = 0 ∨ rxLen = 0 ∨ rxCnt = 0)) := by
  unfold push at h
  by_cases g1 : b.nbrMsgs ≥ kMaxNbrMsgs
  · rw [if_pos g1] at h
    exact absurd h (by simp [kI2cErrTxBufferFull, kI2cNoError])
  rw [if_neg g1] at h
  by_cases g2 : txLen > kMaxMsgLen
  · rw [if_pos g2] at h
    exact absurd h (by simp [kI2cErrMsgTooLong, kI2cNoError])
  rw [if_neg g2] at h
  by_cases g3 : status = 0
  · rw [if_pos g3] at h
    exact absurd h (by simp [kI2cErrNullStatusPtr, kI2cNoError])
  rw [if_neg g3] at h
  by_cases g4 : (txMode = kI2cWrite ∨ txMode = kI2cWriteRestartRead) ∧
      (txData = none ∨ txLen = 0)
  · rw [if_pos g4] at h
    exact absurd h (by simp [kI2cErrWriteWithoutData, kI2cNoError])
  rw [if_neg g4] at h
  by_cases g5 : (txMode = kI2cRead ∨ txMode = kI2cWriteRestartRead) ∧
      (rxBuf = 0 ∨ rxLen = 0 ∨ rxCnt = 0)
  · rw [if_pos g5] at h
    exact absurd h (by simp [kI2cErrReadWithoutStorage, kI2cNoError])
  exact ⟨by omega, by omega, g3, g4, g5⟩

end I2cMaster


namespace I2cMaster

/-- One start/SLA-NACK round under the special handling: the start interrupt
resets `gRetries` to 0 and marks the status cell in-progress, so the
following SLA-NACK always sees `gRetries = 0 < 3` and schedules another
start with `gRetries = 1`. -/
theorem c3_pair_eq (st : MasterState) :
    masterIsr true TW_MT_SLA_NACK 0 (masterIsr true TW_START 0 st) =
      { st with
          twdr :=
            if getCurrentTxMode st.buffer &&& kI2cWriteMask ≠ 0 then
              SLA_W (getCurrentAddress st.buffer)
            else
              SLA_R (getCurrentAddress st.buffer)
          mem := Function.update st.mem (getCurrentStatus st.buffer) kI2cInProgress
          retries := 1
          busy := true
          control := .sendStart } := by
  rw [isr_start true TW_START (Or.inl rfl) 0 st]
  rw [isr_sla_nack_special TW_MT_SLA_NACK (Or.inl rfl) 0 _]
  norm_num

end I2cMaster

namespace I2cMaster

/-- The always-NACK scenario cycles: one further start/SLA-NACK round maps
`c3CycleState` to itself (the start interrupt resets the retry counter, so
the retry budget can never be exceeded). -/
theorem c3_cycle :
    masterIsr true TW_MT_SLA_NACK 0 (masterIsr true TW_START 0 c3CycleState) =
      c3CycleState := by
  have h0 :
      c3CycleState =
        { c3Init with
            twdr :=
              if getCurrentTxMode c3Init.buffer &&& kI2cWriteMask ≠ 0 then
                SLA_W (getCurrentAddress c3Init.buffer)
              else
                SLA_R (getCurrentAddress c3Init.buffer)
            mem := Function.update c3Init.mem (getCurrentStatus c3Init.buffer)
              kI2cInProgress
            retries := 1
            busy := true
            control := .sendStart } := c3_pair_eq c3Init
  rw [c3_pair_eq c3CycleState, h0]
  simp [getCurrentTxMode, getCurrentAddress, getCurrentStatus, Function.update_idem]

end I2cMaster

namespace I2cMaster

/-- Closed form of the always-NACK run: after any positive number of
start/SLA-NACK rounds the engine sits in `c3CycleState`. -/
theorem c3_run (n : Nat) :
    runMaster true (c3Trace n) c3Init = if n = 0 then c3Init else c3CycleState := by
  induction n with
  | zero => rfl
  | succ m ih =>
      have htr : c3Trace (m + 1) = c3Trace m ++ [(TW_START, 0), (TW_MT_SLA_NACK, 0)] := by
        simp [c3Trace, List.replicate_succ']
      rw [htr]
      unfold runMaster at ih ⊢
      rw [List.foldl_append, ih]
      by_cases hm : m = 0
      · rw [if_pos hm, if_neg (by omega)]
        rfl
      · rw [if_neg hm, if_neg (by omega)]
        exact c3_cycle

/-- C3: the claim states that with the SLA-NACK retry handling enabled a
slave that NACKs the address on every attempt yields `Error` after exactly
the retry budget (3) and the engine never loops indefinitely.  The code
violates this: the start branch of the interrupt handler resets `gRetries`
to 0, so after every number of rounds the transaction's status cell (at
address 5) still holds `kI2cNotStarted` or `kI2cInProgress` — never an
error-tagged value — the engine stays busy, and the retry counter never
exceeds 1: the retry budget is dead code and the engine retries forever. -/
theorem c3_always_nack_never_errors (n : Nat) :
    ((runMaster true (c3Trace n) c3Init).mem
        (getCurrentStatus c3Init.buffer) = kI2cNotStarted ∨
      (runMaster true (c3Trace n) c3Init).mem
        (getCurrentStatus c3Init.buffer) = kI2cInProgress) ∧
    (runMaster true (c3Trace n) c3Init).busy = true ∧
    (runMaster true (c3Trace n) c3Init).retries ≤ 1 := by
  rw [c3_run n]
  by_cases hn : n = 0
  · rw [if_pos hn]
    exact ⟨by decide, by decide, by decide⟩
  · rw [if_neg hn]
    exact ⟨by decide, by decide, by decide⟩

end I2cMaster

namespace I2cMaster

/-- `getCurrentByte` with bytes remaining: return the byte at the cursor and
advance the cursor. -/
theorem getCurrentByte_lt (b : BufferI2cTx)
    (h : b.currentByte < (b.slots b.currentMsg).txBufferSize) :
    getCurrentByte b =
      (some ((b.slots b.currentMsg).txData b.currentByte),
        { b with currentByte := b.currentByte + 1 }) := by
  unfold getCurrentByte
  rw [if_pos h]

/-- `getCurrentByte` with the payload exhausted: report `-1` (here `none`)
and leave the queue untouched. -/
theorem getCurrentByte_ge (b : BufferI2cTx)
    (h : ¬b.currentByte < (b.slots b.currentMsg).txBufferSize) :
    getCurrentByte b = (none, b) := by
  unfold getCurrentByte
  rw [if_neg h]

/-- Write phase of the master engine: `k` consecutive data-ACK interrupts
with at least `k` payload bytes left just advance the byte cursor by `k`
(sending those bytes), touching nothing else but `TWDR` and the control
register. -/
theorem c1_write_steps (k : Nat) : ∀ (st : MasterState),
    st.buffer.currentByte + k ≤ (st.buffer.slots st.buffer.currentMsg).txBufferSize →
    ∃ t c, runMaster false (List.replicate k (TW_MT_DATA_ACK, 0)) st =
      { st with
          buffer := { st.buffer with currentByte := st.buffer.currentByte + k }
          twdr := t
          control := c } := by
  induction k with
  | zero =>
      intro st _
      exact ⟨st.twdr, st.control, rfl⟩
  | succ m ih =>
      intro st hk
      have hlt : st.buffer.currentByte < (st.buffer.slots st.buffer.currentMsg).txBufferSize := by
        omega
      have hstep :
          masterIsr false TW_MT_DATA_ACK 0 st =
            { st with
                buffer := { st.buffer with currentByte := st.buffer.currentByte + 1 }
                twdr := (st.buffer.slots st.buffer.currentMsg).txData st.buffer.currentByte
                control := .sendNextByte } := by
        rw [isr_mt_ack false TW_MT_DATA_ACK (Or.inr rfl) 0 st]
        rw [getCurrentByte_lt st.buffer hlt]
      obtain ⟨t, c, hrun⟩ := ih
        { st with
            buffer := { st.buffer with currentByte := st.buffer.currentByte + 1 }
            twdr := (st.buffer.slots st.buffer.currentMsg).txData st.buffer.currentByte
            control := .sendNextByte }
        (by simpa using by omega)
      refine ⟨t, c, ?_⟩
      rw [List.replicate_succ]
      unfold runMaster at hrun ⊢
      rw [List.foldl_cons, hstep, hrun]
      have harith : st.buffer.currentByte + 1 + m = st.buffer.currentByte + (m + 1) := by
        omega
      simp [harith]

end I2cMaster

namespace I2cMaster

/-- Read phase of the master engine: consecutive data-ACK interrupts with
received bytes `bs` perform exactly the `rxWrites` stores (byte into
`bufAddr + counter`, then counter incremented) and touch nothing but the
caller memory and the control register. -/
theorem c1_read_steps (bs : List Nat) : ∀ (st : MasterState),
    (st.buffer.slots st.buffer.currentMsg).rxCntPtr = cntAddr →
    (st.buffer.slots st.buffer.currentMsg).rxBufPtr = bufAddr →
    ∃ c, runMaster false (bs.map (fun b => (TW_MR_DATA_ACK, b))) st =
      { st with mem := rxWrites st.mem bs, control := c } := by
  induction bs with
  | nil =>
      intro st _ _
      exact ⟨st.control, rfl⟩
  | cons b bs ih =>
      intro st hcnt hbuf
      obtain ⟨c0, hstep⟩ : ∃ c0, masterIsr false TW_MR_DATA_ACK b st =
          { st with
              mem := Function.update
                (Function.update st.mem (bufAddr + st.mem cntAddr) b)
                cntAddr ((st.mem cntAddr + 1) % 256)
              control := c0 } := by
        rw [isr_mr_data_ack false b st]
        simp only [getCurrentRxBufferCtr, getCurrentRxBufferPtr]
        rw [hcnt, hbuf]
        rw [Function.update_noteq
          (show (cntAddr : Nat) ≠ bufAddr + st.mem cntAddr by
            simp only [cntAddr, bufAddr]; omega)]
        split_ifs with hc
        · exact ⟨.getNextByteWithACK, rfl⟩
        · exact ⟨.getNextByteWithNACK, rfl⟩
      obtain ⟨c, hrun⟩ := ih
        { st with
            mem := Function.update
              (Function.update st.mem (bufAddr + st.mem cntAddr) b)
              cntAddr ((st.mem cntAddr + 1) % 256)
            control := c0 }
        (by simpa using hcnt) (by simpa using hbuf)
      refine ⟨c, ?_⟩
      rw [List.map_cons]
      unfold runMaster at hrun ⊢
      rw [List.foldl_cons, hstep, hrun]
      rfl

/-- `rxWrites` never touches an address below the receive buffer other than
the counter cell (in particular not the status cell at `stAddr`), as long as
the counter does not wrap. -/
theorem rxWrites_outside (bs : List Nat) : ∀ (m : Mem) (a : Nat),
    a < bufAddr → a ≠ cntAddr → rxWrites m bs a = m a := by
  induction bs with
  | nil => intro m a _ _; rfl
  | cons b bs ih =>
      intro m a ha hcnt
      show rxWrites _ bs a = m a
      rw [ih _ a ha hcnt]
      rw [Function.update_noteq hcnt, Function.update_noteq
        (show a ≠ bufAddr + m cntAddr by omega)]

/-- The counter cell after `rxWrites`: incremented once per stored byte
(given no 8-bit wrap). -/
theorem rxWrites_cnt (bs : List Nat) : ∀ (m : Mem),
    m cntAddr + bs.length ≤ 255 → rxWrites m bs cntAddr = m cntAddr + bs.length := by
  induction bs with
  | nil => intro m _; rfl
  | cons b bs ih =>
      intro m hm
      show rxWrites (Function.update (Function.update m (bufAddr + m cntAddr) b)
        cntAddr ((m cntAddr + 1) % 256)) bs cntAddr = _
      rw [ih _ ?_] <;>
        rw [Function.update_same,
          show (m cntAddr + 1) % 256 = m cntAddr + 1 by
            simp at hm ⊢
            omega] <;>
        simp at hm ⊢ <;> omega

/-- Addresses strictly below the next store location are untouched by
`rxWrites` (given no 8-bit counter wrap). -/
theorem rxWrites_lower (bs : List Nat) : ∀ (m : Mem) (a : Nat),
    m cntAddr + bs.length ≤ 255 → a ≠ cntAddr → a < bufAddr + m cntAddr →
    rxWrites m bs a = m a := by
  induction bs with
  | nil => intro m a _ _ _; rfl
  | cons b bs ih =>
      intro m a hm hcnt hlow
      show rxWrites (Function.update (Function.update m (bufAddr + m cntAddr) b)
        cntAddr ((m cntAddr + 1) % 256)) bs a = m a
      have hwrap : (m cntAddr + 1) % 256 = m cntAddr + 1 := by
        simp at hm
        omega
      rw [ih _ a ?_ hcnt ?_]
      · rw [Function.update_noteq hcnt, Function.update_noteq (by omega)]
      · rw [Function.update_same, hwrap]
        simp at hm
        omega
      · rw [Function.update_same, hwrap]
        omega

/-- The bytes stored by `rxWrites` land at consecutive buffer addresses in
arrival order (given no 8-bit counter wrap). -/
theorem rxWrites_buf (bs : List Nat) : ∀ (m : Mem) (j : Nat),
    m cntAddr + bs.length ≤ 255 → j < bs.length →
    rxWrites m bs (bufAddr + m cntAddr + j) = bs.getD j 0 := by
  induction bs with
  | nil => intro m j _ hj; exact absurd hj (by simp)
  | cons b bs ih =>
      intro m j hm hj
      have hwrap : (m cntAddr + 1) % 256 = m cntAddr + 1 := by
        simp at hm
        omega
      show rxWrites (Function.update (Function.update m (bufAddr + m cntAddr) b)
        cntAddr ((m cntAddr + 1) % 256)) bs (bufAddr + m cntAddr + j) = _
      rcases Nat.eq_zero_or_pos j with hj0 | hjpos
      · subst hj0
        rw [rxWrites_lower bs _ _ ?_ ?_ ?_]
        · rw [Function.update_noteq (by simp only [cntAddr, bufAddr]; omega),
            Nat.add_zero, Function.update_same]
          rfl
        · rw [Function.update_same, hwrap]
          simp at hm
          omega
        · simp only [cntAddr, bufAddr]
          omega
        · rw [Function.update_same, hwrap]
          omega
      · obtain ⟨i, rfl⟩ : ∃ i, j = i + 1 := ⟨j - 1, by omega⟩
        have := ih (Function.update (Function.update m (bufAddr + m cntAddr) b)
          cntAddr ((m cntAddr + 1) % 256)) i ?_ ?_
        · rw [show bufAddr + m cntAddr + (i + 1) =
              bufAddr + (Function.update (Function.update m (bufAddr + m cntAddr) b)
                cntAddr ((m cntAddr + 1) % 256)) cntAddr + i by
              rw [Function.update_same, hwrap]; omega]
          rw [this]
          rfl
        · rw [Function.update_same, hwrap]
          simp at hm
          omega
        · simp at hj
          omega

end I2cMaster

namespace I2cMaster

/-- C5: FIFO ordering of the transaction queue.  A successful `push` appends
the new transaction at slot `(mCurrentMsg + mNbrMsgs) % kMaxNbrMsgs` without
touching the current slot index or any other slot, so the service-order list
of occupied slots grows at the back; `doneWithCurrentMessage` consumes
exactly the front of that list by advancing the current index; within one
transaction `getCurrentByte` yields the payload bytes in array order (byte
`mCurrentByte`, then the cursor advances by one); and within one transaction
the receive interrupts store the received bytes in array order: each
`TW_MR_DATA_ACK` step stores its byte at `rxBufPtr + *rxCnt` and then
increments the counter, so after receiving the sequence `bs` the byte at
buffer offset `j` is `bs[j]` for every `j`. -/
theorem c5_fifo_submission_order :
    (∀ (address txMode : Nat) (txData : Option (List Nat))
        (txLen rxBuf rxLen rxCnt status : Nat) (b : BufferI2cTx) (m : Mem),
      (push address txMode txData txLen rxBuf rxLen rxCnt status b m).1 = kI2cNoError →
        (push address txMode txData txLen rxBuf rxLen rxCnt status b m).2.1.nbrMsgs =
          b.nbrMsgs + 1 ∧
        (push address txMode txData txLen rxBuf rxLen rxCnt status b m).2.1.currentMsg =
          b.currentMsg ∧
        queueList (push address txMode txData txLen rxBuf rxLen rxCnt status b m).2.1 =
          queueList b ++ [(b.currentMsg + b.nbrMsgs) % kMaxNbrMsgs] ∧
        ((push address txMode txData txLen rxBuf rxLen rxCnt status b m).2.1.slots
            ((b.currentMsg + b.nbrMsgs) % kMaxNbrMsgs)).address = address ∧
        ((push address txMode txData txLen rxBuf rxLen rxCnt status b m).2.1.slots
            ((b.currentMsg + b.nbrMsgs) % kMaxNbrMsgs)).txMode = txMode ∧
        ((push address txMode txData txLen rxBuf rxLen rxCnt status b m).2.1.slots
            ((b.currentMsg + b.nbrMsgs) % kMaxNbrMsgs)).statusPtr = status ∧
        (∀ i, i ≠ (b.currentMsg + b.nbrMsgs) % kMaxNbrMsgs →
          (push address txMode txData txLen rxBuf rxLen rxCnt status b m).2.1.slots i =
            b.slots i)) ∧
    (∀ b : BufferI2cTx, 1 ≤ b.nbrMsgs → b.nbrMsgs < 256 →
        b.currentMsg < kMaxNbrMsgs →
      queueList (doneWithCurrentMessage b).2 = (queueList b).tail ∧
      (doneWithCurrentMessage b).2.currentByte = 0 ∧
      ((doneWithCurrentMessage b).1 = true ↔ 2 ≤ b.nbrMsgs) ∧
      (∀ i, (doneWithCurrentMessage b).2.slots i = b.slots i)) ∧
    (∀ b : BufferI2cTx, b.currentByte < (b.slots b.currentMsg).txBufferSize →
      getCurrentByte b =
        (some ((b.slots b.currentMsg).txData b.currentByte),
          { b with currentByte := b.currentByte + 1 })) ∧
    (∀ (bs : List Nat) (st : MasterState),
      (st.buffer.slots st.buffer.currentMsg).rxCntPtr = cntAddr →
      (st.buffer.slots st.buffer.currentMsg).rxBufPtr = bufAddr →
      st.mem cntAddr = 0 → bs.length ≤ 255 →
      ∀ j, j < bs.length →
        (runMaster false (bs.map (fun b => (TW_MR_DATA_ACK, b))) st).mem
            (bufAddr + j) =
          bs.getD j 0) := by
  refine ⟨?_, ?_, ?_, ?_⟩
  · intro address txMode txData txLen rxBuf rxLen rxCnt status b m h
    obtain ⟨g1, g2, g3, g4, g5⟩ :=
      push_ok_inv address txMode txData txLen rxBuf rxLen rxCnt status b m h
    rw [push_eq_of_ok address txMode txData txLen rxBuf rxLen rxCnt status b m
      g1 g2 g3 g4 g5]
    refine ⟨rfl, rfl, ?_, ?_, ?_, ?_, ?_⟩
    · simp [queueList, List.range_succ]
    · rw [show ({ b with
          slots := Function.update b.slots ((b.currentMsg + b.nbrMsgs) % kMaxNbrMsgs) _,
          nbrMsgs := b.nbrMsgs + 1 } : BufferI2cTx).slots =
        Function.update b.slots ((b.currentMsg + b.nbrMsgs) % kMaxNbrMsgs) _ from rfl,
        Function.update_same]
    · rw [show ({ b with
          slots := Function.update b.slots ((b.currentMsg + b.nbrMsgs) % kMaxNbrMsgs) _,
          nbrMsgs := b.nbrMsgs + 1 } : BufferI2cTx).slots =
        Function.update b.slots ((b.currentMsg + b.nbrMsgs) % kMaxNbrMsgs) _ from rfl,
        Function.update_same]
    · rw [show ({ b with
          slots := Function.update b.slots ((b.currentMsg + b.nbrMsgs) % kMaxNbrMsgs) _,
          nbrMsgs := b.nbrMsgs + 1 } : BufferI2cTx).slots =
        Function.update b.slots ((b.currentMsg + b.nbrMsgs) % kMaxNbrMsgs) _ from rfl,
        Function.update_same]
    · intro i hi
      exact Function.update_noteq hi _ b.slots
  · intro b h1 h2 h3
    by_cases hm : 2 ≤ b.nbrMsgs
    · rw [done_more b hm h2 h3]
      refine ⟨?_, rfl, by simp [hm], fun i => rfl⟩
      obtain ⟨k, hk⟩ : ∃ k, b.nbrMsgs = k + 1 := ⟨b.nbrMsgs - 1, by omega⟩
      simp only [queueList, hk, Nat.add_sub_cancel, List.range_succ_eq_map,
        List.map_cons, List.map_map, List.tail_cons]
      refine List.map_congr_left fun a _ => ?_
      simp only [Function.comp_apply]
      rw [Nat.mod_add_mod]
      have hsucc : b.currentMsg + 1 + a = b.currentMsg + a.succ := by omega
      rw [hsucc]
    · have hone : b.nbrMsgs = 1 := by omega
      rw [done_last b hone]
      refine ⟨?_, rfl, by simp [hone], fun i => rfl⟩
      simp [queueList, hone, List.range_succ]
  · intro b h
    unfold getCurrentByte
    rw [if_pos h]
  · intro bs st hcnt hbuf hcnt0 hlen j hj
    obtain ⟨c, h⟩ := c1_read_steps bs st hcnt hbuf
    rw [h]
    have hb := rxWrites_buf bs st.mem j (by rw [hcnt0]; omega) hj
    rw [hcnt0, Nat.add_zero] at hb
    exact hb

end I2cMaster

namespace I2cMaster

/-- C5 witness: pushing a two-byte write onto the empty queue appends slot 0
to the service-order list; reclaiming it empties the list again; the first
`getCurrentByte` of the queued message returns payload byte 0 and advances
the cursor; and receiving the bytes `[7, 9]` on the demo state stores 7 at
buffer offset 0 and 9 at buffer offset 1. -/
theorem c5_witness :
    ((push 0x50 kI2cWrite (some [1, 2]) 2 0 0 0 5 initialBuffer (fun _ => 0)).1 =
        kI2cNoError ∧
      queueList c5DemoBuffer =
        queueList initialBuffer ++
          [(initialBuffer.currentMsg + initialBuffer.nbrMsgs) % kMaxNbrMsgs]) ∧
    (1 ≤ c5DemoBuffer.nbrMsgs ∧
      queueList (doneWithCurrentMessage c5DemoBuffer).2 =
        (queueList c5DemoBuffer).tail) ∧
    (c5DemoBuffer.currentByte <
        (c5DemoBuffer.slots c5DemoBuffer.currentMsg).txBufferSize ∧
      getCurrentByte c5DemoBuffer =
        (some ((c5DemoBuffer.slots c5DemoBuffer.currentMsg).txData
            c5DemoBuffer.currentByte),
          { c5DemoBuffer with currentByte := c5DemoBuffer.currentByte + 1 })) ∧
    ((c4DemoState.buffer.slots c4DemoState.buffer.currentMsg).rxCntPtr =
        cntAddr ∧
      (c4DemoState.buffer.slots c4DemoState.buffer.currentMsg).rxBufPtr =
        bufAddr ∧
      c4DemoState.mem cntAddr = 0 ∧ ([7, 9] : List Nat).length ≤ 255 ∧
      (runMaster false (([7, 9] : List Nat).map (fun b => (TW_MR_DATA_ACK, b)))
          c4DemoState).mem (bufAddr + 0) = ([7, 9] : List Nat).getD 0 0 ∧
      (runMaster false (([7, 9] : List Nat).map (fun b => (TW_MR_DATA_ACK, b)))
          c4DemoState).mem (bufAddr + 1) = ([7, 9] : List Nat).getD 1 0) := by
  have H := c5_fifo_submission_order
  exact ⟨⟨by decide,
      (H.1 0x50 kI2cWrite (some [1, 2]) 2 0 0 0 5 initialBuffer (fun _ => 0)
        (by decide)).2.2.1⟩,
    ⟨by decide, (H.2.1 c5DemoBuffer (by decide) (by decide) (by decide)).1⟩,
    ⟨by decide, H.2.2.1 c5DemoBuffer (by decide)⟩,
    ⟨by decide, by decide, by decide, by decide,
      H.2.2.2 [7, 9] c4DemoState (by decide) (by decide) (by decide) (by decide)
        0 (by decide),
      H.2.2.2 [7, 9] c4DemoState (by decide) (by decide) (by decide) (by decide)
        1 (by decide)⟩⟩

end I2cMaster

namespace I2cMaster

/-- Running the engine over a concatenated event list is running it over the
two pieces in turn. -/
theorem runMaster_append (s : Bool) (l1 l2 : List (Nat × Nat)) (st : MasterState) :
    runMaster s (l1 ++ l2) st = runMaster s l2 (runMaster s l1 st) := by
  unfold runMaster
  rw [List.foldl_append]

/-- Running the engine over an event list starting with `(tw, d)` first takes
the interrupt step for that event. -/
theorem runMaster_cons (s : Bool) (tw d : Nat) (l : List (Nat × Nat))
    (st : MasterState) :
    runMaster s ((tw, d) :: l) st = runMaster s l (masterIsr s tw d st) := by
  unfold runMaster
  rw [List.foldl_cons]

/-- C1: for every WriteThenRead transaction (any address, any nonempty
payload within the length limit, any receive capacity `rxInit.length + 1 ≤
255`) whose slave ACKs the address and every payload byte and then supplies
exactly `rxCapacity` bytes (the last answered with NACK), the engine flips
the transaction's mode to `kI2cRead` and issues a repeated start at the end
of the write phase, and finishes with the status cell `kI2cCompletedOk`,
the receive counter equal to the capacity, every received byte stored into
the receive buffer in arrival order, the busy flag cleared and a stop
requested. -/
theorem c1_write_then_read_completes (address : Nat) (txData rxInit : List Nat)
    (rxLast : Nat) (htx1 : txData ≠ []) (htx2 : txData.length ≤ kMaxMsgLen)
    (hrx : rxInit.length + 1 ≤ 255) :
    ((c1Mid address txData (rxInit.length + 1)).control = .sendRestart ∧
      getCurrentTxMode (c1Mid address txData (rxInit.length + 1)).buffer = kI2cRead) ∧
    (c1Final address txData rxInit rxLast).mem stAddr = kI2cCompletedOk ∧
    (c1Final address txData rxInit rxLast).mem cntAddr = rxInit.length + 1 ∧
    (∀ j, j < rxInit.length + 1 →
      (c1Final address txData rxInit rxLast).mem (bufAddr + j) =
        (rxInit ++ [rxLast]).getD j 0) ∧
    (c1Final address txData rxInit rxLast).busy = false ∧
    (c1Final address txData rxInit rxLast).control = .sendStop := by
  have hlen : txData.length ≠ 0 := fun h => htx1 (List.length_eq_zero.mp h)
  have hlpos : 1 ≤ txData.length := Nat.pos_of_ne_zero hlen
  have hpush := push_eq_of_ok address kI2cWriteRestartRead (some txData) txData.length
    bufAddr (rxInit.length + 1) cntAddr stAddr initialBuffer (fun _ => 0)
    (by decide) htx2 (by decide)
    (by rintro ⟨-, hc | hc⟩
        · exact Option.noConfusion hc
        · exact hlen hc)
    (by rintro ⟨-, hc | hc | hc⟩
        · exact absurd hc (by decide)
        · omega
        · exact absurd hc (by decide))
  -- the engine state right after submission
  have hst0 : c1Start address txData (rxInit.length + 1) =
      { buffer :=
          { slots := Function.update (fun _ => ({} : Slot)) 0
              { address := address
                txMode := kI2cWriteRestartRead
                txData := copyTxData (some txData) txData.length (fun _ => 0)
                txBufferSize := txData.length
                rxBufPtr := bufAddr
                rxBufferSize := rxInit.length + 1
                rxCntPtr := cntAddr
                statusPtr := stAddr }
            currentByte := 0
            nbrMsgs := 1
            currentMsg := 0 }
        mem := Function.update (Function.update (fun _ => 0) cntAddr 0) stAddr
          kI2cNotStarted
        busy := true
        retries := 0
        twdr := 0xFF
        control := .sendStart } := by
    simp only [c1Start, submit, initialMaster]
    rw [hpush]
    simp [startI2c, TwiControl.twie, kI2cNoError, hlen, initialBuffer,
      bufAddr, cntAddr, stAddr]
  set S1 : Slot :=
    { address := address
      txMode := kI2cWriteRestartRead
      txData := copyTxData (some txData) txData.length (fun _ => 0)
      txBufferSize := txData.length
      rxBufPtr := bufAddr
      rxBufferSize := rxInit.length + 1
      rxCntPtr := cntAddr
      statusPtr := stAddr } with hS1
  set B1 : BufferI2cTx :=
    { slots := Function.update (fun _ => ({} : Slot)) 0 S1
      currentByte := 0
      nbrMsgs := 1
      currentMsg := 0 } with hB1
  set M1 : Mem :=
    Function.update (Function.update (fun _ => 0) cntAddr 0) stAddr kI2cNotStarted
    with hM1
  have hmode1 : getCurrentTxMode B1 = kI2cWriteRestartRead := by
    simp [getCurrentTxMode, hB1, hS1]
  have haddr1 : getCurrentAddress B1 = address := by
    simp [getCurrentAddress, hB1, hS1]
  have hstat1 : getCurrentStatus B1 = stAddr := by
    simp [getCurrentStatus, hB1, hS1]
  have hsize1 : (B1.slots B1.currentMsg).txBufferSize = txData.length := by
    simp [hB1, hS1]
  have hrow1 : (B1.slots B1.currentMsg).txData =
      copyTxData (some txData) txData.length (fun _ => 0) := by
    simp [hB1, hS1]
  -- the start interrupt: send SLA+W, mark the status cell in progress
  have h1 : masterIsr false TW_START 0 (c1Start address txData (rxInit.length + 1)) =
      { buffer := B1
        mem := Function.update M1 stAddr kI2cInProgress
        busy := true
        retries := 0
        twdr := SLA_W address
        control := .sendNextByte } := by
    rw [hst0, isr_start false TW_START (Or.inl rfl) 0 _]
    simp only [hmode1, haddr1, hstat1]
    rw [if_pos (by decide : kI2cWriteRestartRead &&& kI2cWriteMask ≠ 0)]
    norm_num
  -- the SLA+W ACK: send payload byte 0
  have h2 : masterIsr false TW_MT_SLA_ACK 0
      { buffer := B1
        mem := Function.update M1 stAddr kI2cInProgress
        busy := true
        retries := 0
        twdr := SLA_W address
        control := .sendNextByte } =
      { buffer := { B1 with currentByte := 1 }
        mem := Function.update M1 stAddr kI2cInProgress
        busy := true
        retries := 0
        twdr := copyTxData (some txData) txData.length (fun _ => 0) 0
        control := .sendNextByte } := by
    rw [isr_mt_ack false TW_MT_SLA_ACK (Or.inl rfl) 0 _]
    rw [getCurrentByte_lt B1 (by rw [hsize1]; simpa [hB1] using hlpos)]
    have hcb1 : B1.currentByte = 0 := by simp [hB1]
    simp only [hrow1, hcb1]
    norm_num
  -- split the write phase into explicit segments
  have hwp : c1WritePhase txData.length =
      (TW_START, 0) :: (TW_MT_SLA_ACK, 0) ::
        (List.replicate (txData.length - 1) (TW_MT_DATA_ACK, 0) ++
          [(TW_MT_DATA_ACK, 0)]) := by
    simp only [c1WritePhase]
    congr 2
    rw [← List.replicate_succ']
    congr 1
    omega
  set B2 : BufferI2cTx :=
    setCurrentTxMode { B1 with currentByte := txData.length } kI2cRead with hB2
  -- run the write phase: engine ends at byte cursor = payload length, flips
  -- the mode to read and requests a repeated start
  have hmid : ∃ t, c1Mid address txData (rxInit.length + 1) =
      { buffer := B2
        mem := Function.update M1 stAddr kI2cInProgress
        busy := true
        retries := 0
        twdr := t
        control := .sendRestart } := by
    obtain ⟨t, c, hws⟩ := c1_write_steps (txData.length - 1)
      { buffer := { B1 with currentByte := 1 }
        mem := Function.update M1 stAddr kI2cInProgress
        busy := true
        retries := 0
        twdr := copyTxData (some txData) txData.length (fun _ => 0) 0
        control := .sendNextByte }
      (by simp only [hsize1]
          simp
          omega)
    refine ⟨t, ?_⟩
    show runMaster false (c1WritePhase txData.length)
      (c1Start address txData (rxInit.length + 1)) = _
    rw [hwp]
    unfold runMaster at hws ⊢
    rw [List.foldl_cons, h1, List.foldl_cons, h2, List.foldl_append, hws,
      List.foldl_cons, List.foldl_nil]
    rw [isr_mt_ack false TW_MT_DATA_ACK (Or.inr rfl) 0 _]
    rw [getCurrentByte_ge _ (by simp only [hsize1]; simp; omega)]
    have hslot1 : B1.slots B1.currentMsg = S1 := by simp [hB1]
    simp only [hB2, setCurrentTxMode, getCurrentTxMode, hslot1, hS1]
    simp [MasterState.mk.injEq, BufferI2cTx.mk.injEq, Slot.mk.injEq]
    omega
  obtain ⟨t4, hmid⟩ := hmid
  have hslot1 : B1.slots B1.currentMsg = S1 := by simp [hB1]
  have hslot2 : B2.slots B2.currentMsg = { S1 with txMode := kI2cRead } := by
    simp [hB2, setCurrentTxMode, hslot1]
  have hmode2 : getCurrentTxMode B2 = kI2cRead := by
    simp [getCurrentTxMode, hslot2]
  have haddr2 : getCurrentAddress B2 = address := by
    simp [getCurrentAddress, hslot2, hS1]
  have hstat2 : getCurrentStatus B2 = stAddr := by
    simp [getCurrentStatus, hslot2, hS1]
  have hrxc2 : (B2.slots B2.currentMsg).rxCntPtr = cntAddr := by
    simp [hslot2, hS1]
  have hrxb2 : (B2.slots B2.currentMsg).rxBufPtr = bufAddr := by
    simp [hslot2, hS1]
  have hnbr2 : B2.nbrMsgs = 1 := by
    simp [hB2, setCurrentTxMode, hB1]
  -- the repeated-start interrupt: send SLA+R, mark the status cell again
  have h5 : masterIsr false TW_REP_START 0
      { buffer := B2
        mem := Function.update M1 stAddr kI2cInProgress
        busy := true
        retries := 0
        twdr := t4
        control := .sendRestart } =
      { buffer := B2
        mem := Function.update (Function.update M1 stAddr kI2cInProgress) stAddr
          kI2cInProgress
        busy := true
        retries := 0
        twdr := SLA_R address
        control := .sendNextByte } := by
    rw [isr_start false TW_REP_START (Or.inr rfl) 0 _]
    simp only [hmode2, haddr2, hstat2]
    rw [if_neg (by decide : ¬kI2cRead &&& kI2cWriteMask ≠ 0)]
    norm_num
  -- the SLA+R ACK chooses only the acknowledgment mode for the first byte
  have h6 : ∃ c6, masterIsr false TW_MR_SLA_ACK 0
      { buffer := B2
        mem := Function.update (Function.update M1 stAddr kI2cInProgress) stAddr
          kI2cInProgress
        busy := true
        retries := 0
        twdr := SLA_R address
        control := .sendNextByte } =
      { buffer := B2
        mem := Function.update (Function.update M1 stAddr kI2cInProgress) stAddr
          kI2cInProgress
        busy := true
        retries := 0
        twdr := SLA_R address
        control := c6 } := by
    rw [isr_mr_sla_ack false 0 _]
    split_ifs
    · exact ⟨_, rfl⟩
    · exact ⟨_, rfl⟩
  obtain ⟨c6, h6⟩ := h6
  -- the received bytes land in the caller's buffer via rxWrites
  obtain ⟨c7, h7⟩ := c1_read_steps rxInit
    { buffer := B2
      mem := Function.update (Function.update M1 stAddr kI2cInProgress) stAddr
        kI2cInProgress
      busy := true
      retries := 0
      twdr := SLA_R address
      control := c6 }
    (by simpa using hrxc2) (by simpa using hrxb2)
  -- counter value facts
  have hM3cnt : (Function.update (Function.update M1 stAddr kI2cInProgress) stAddr
      kI2cInProgress) cntAddr = 0 := by
    rw [Function.update_noteq (by decide : (cntAddr : Nat) ≠ stAddr),
      Function.update_noteq (by decide : (cntAddr : Nat) ≠ stAddr), hM1,
      Function.update_noteq (by decide : (cntAddr : Nat) ≠ stAddr),
      Function.update_same]
  have hidx : rxWrites (Function.update (Function.update M1 stAddr kI2cInProgress)
      stAddr kI2cInProgress) rxInit cntAddr = rxInit.length := by
    rw [rxWrites_cnt rxInit _ (by rw [hM3cnt]; omega), hM3cnt, Nat.zero_add]
  set M3 : Mem := Function.update (Function.update M1 stAddr kI2cInProgress) stAddr
    kI2cInProgress with hM3
  set RW : Mem := rxWrites M3 rxInit with hRW
  -- restate the read phase with the result record in evaluated form
  have h7' : runMaster false (rxInit.map (fun b => (TW_MR_DATA_ACK, b)))
      { buffer := B2
        mem := M3
        busy := true
        retries := 0
        twdr := SLA_R address
        control := c6 } =
      { buffer := B2
        mem := RW
        busy := true
        retries := 0
        twdr := SLA_R address
        control := c7 } := by
    rw [hRW, hM3]
    exact h7
  -- the final byte with NACK: store it, bump the counter, mark the status
  -- cell completed, retire the only queued message and request a stop
  have h8 : masterIsr false TW_MR_DATA_NACK rxLast
      { buffer := B2
        mem := RW
        busy := true
        retries := 0
        twdr := SLA_R address
        control := c7 } =
      { buffer := { B2 with nbrMsgs := 0, currentByte := 0 }
        mem := Function.update (Function.update (Function.update RW
          (bufAddr + rxInit.length) rxLast) cntAddr (rxInit.length + 1)) stAddr
          kI2cCompletedOk
        busy := false
        retries := 0
        twdr := SLA_R address
        control := .sendStop } := by
    have hne : (cntAddr : Nat) ≠ bufAddr + rxInit.length := by
      simp only [cntAddr, bufAddr]; omega
    rw [isr_mr_data_nack false rxLast _]
    simp only [getCurrentRxBufferCtr, getCurrentRxBufferPtr]
    rw [hrxc2, hrxb2, hstat2, done_last B2 hnbr2, hidx,
      Function.update_noteq hne, hidx, Nat.mod_eq_of_lt (by omega)]
    norm_num
  -- the full event trace is the write phase followed by the read phase
  have hsplit : c1Events txData.length rxInit rxLast =
      c1WritePhase txData.length ++
        ((TW_REP_START, 0) :: (TW_MR_SLA_ACK, 0) ::
          (rxInit.map (fun b => (TW_MR_DATA_ACK, b)) ++
            [(TW_MR_DATA_NACK, rxLast)])) := by
    simp [c1Events, c1WritePhase]
  have hfin : c1Final address txData rxInit rxLast =
      { buffer := { B2 with nbrMsgs := 0, currentByte := 0 }
        mem := Function.update (Function.update (Function.update RW
          (bufAddr + rxInit.length) rxLast) cntAddr (rxInit.length + 1)) stAddr
          kI2cCompletedOk
        busy := false
        retries := 0
        twdr := SLA_R address
        control := .sendStop } := by
    show runMaster false (c1Events txData.length rxInit rxLast)
      (c1Start address txData (rxInit.length + 1)) = _
    rw [hsplit, runMaster_append]
    rw [show runMaster false (c1WritePhase txData.length)
        (c1Start address txData (rxInit.length + 1)) =
        c1Mid address txData (rxInit.length + 1) from rfl]
    rw [hmid, runMaster_cons, h5, runMaster_cons, h6, runMaster_append, h7',
      runMaster_cons, h8]
    rfl
  refine ⟨⟨?_, ?_⟩, ?_, ?_, ?_, ?_, ?_⟩
  · simp only [hmid]
  · simp only [hmid]
    exact hmode2
  · simp only [hfin]
    rw [Function.update_same]
  · simp only [hfin]
    rw [Function.update_noteq (by decide : (cntAddr : Nat) ≠ stAddr),
      Function.update_same]
  · intro j hj
    have hne1 : bufAddr + j ≠ stAddr := by
      simp only [bufAddr, stAddr]; omega
    have hne2 : bufAddr + j ≠ cntAddr := by
      simp only [bufAddr, cntAddr]; omega
    simp only [hfin]
    rw [Function.update_noteq hne1, Function.update_noteq hne2]
    by_cases hcase : j = rxInit.length
    · subst hcase
      rw [Function.update_same, List.getD_eq_getElem?_getD,
        List.getElem?_concat_length]
      rfl
    · have hlt : j < rxInit.length := by omega
      have hbj : RW (bufAddr + j) = rxInit.getD j 0 := by
        have hb := rxWrites_buf rxInit M3 j (by rw [hM3cnt]; omega) hlt
        rw [hM3cnt, Nat.add_zero] at hb
        rw [hRW]
        exact hb
      rw [Function.update_noteq (by simp only [bufAddr]; omega :
          bufAddr + j ≠ bufAddr + rxInit.length), hbj]
      exact (List.getD_append _ _ _ _ hlt).symm
  · simp only [hfin]
  · simp only [hfin]

/-- Witness for the write-then-read claim at a concrete input: address
`0x50`, payload `[7, 8]`, slave supplies `3` then `9` (NACKed). -/
theorem c1_witness :
    ([7, 8] : List Nat) ≠ [] ∧ ([7, 8] : List Nat).length ≤ kMaxMsgLen ∧
    ([3] : List Nat).length + 1 ≤ 255 ∧
    (((c1Mid 0x50 [7, 8] 2).control = TwiControl.sendRestart ∧
        getCurrentTxMode (c1Mid 0x50 [7, 8] 2).buffer = kI2cRead) ∧
      (c1Final 0x50 [7, 8] [3] 9).mem stAddr = kI2cCompletedOk ∧
      (c1Final 0x50 [7, 8] [3] 9).mem cntAddr = 2 ∧
      (∀ j, j < 2 →
        (c1Final 0x50 [7, 8] [3] 9).mem (bufAddr + j) =
          (([3] : List Nat) ++ [9]).getD j 0) ∧
      (c1Final 0x50 [7, 8] [3] 9).busy = false ∧
      (c1Final 0x50 [7, 8] [3] 9).control = TwiControl.sendStop) :=
  ⟨by decide, by decide, by decide,
    c1_write_then_read_completes 0x50 [7, 8] [3] 9 (by decide) (by decide)
      (by decide)⟩

end I2cMaster

namespace I2cMaster

/-- No status value ranks beyond terminal. -/
theorem statusRank_le_two (s : Nat) : statusRank s ≤ 2 := by
  unfold statusRank
  split_ifs <;> omega

/-- A pending status value has not reached a terminal rank. -/
theorem rank_pending {s : Nat} (h : pendingStatus s) : statusRank s ≤ 1 := by
  rcases h with rfl | rfl <;> decide

/-- Any hardware status with the `kI2cError` bit merged in is terminal: the
resulting value is odd, while both pending codes are even. -/
theorem rank_error (tw : Nat) : statusRank (tw ||| kI2cError) = 2 := by
  have h0 : (tw ||| kI2cError).testBit 0 = true := by
    rw [Nat.testBit_or]
    simp [kI2cError]
  have hA : tw ||| kI2cError ≠ kI2cNotStarted := by
    intro h
    rw [h] at h0
    exact absurd h0 (by decide)
  have hB : tw ||| kI2cError ≠ kI2cInProgress := by
    intro h
    rw [h] at h0
    exact absurd h0 (by decide)
  unfold statusRank
  rw [if_neg hA, if_neg hB]

/-- `setCurrentTxMode` changes only the current slot's `txMode` field: every
slot keeps its three pointer cells. -/
theorem setMode_fields (b : BufferI2cTx) (mo i : Nat) :
    ((setCurrentTxMode b mo).slots i).statusPtr = (b.slots i).statusPtr ∧
    ((setCurrentTxMode b mo).slots i).rxCntPtr = (b.slots i).rxCntPtr ∧
    ((setCurrentTxMode b mo).slots i).rxBufPtr = (b.slots i).rxBufPtr := by
  unfold setCurrentTxMode
  by_cases h : i = b.currentMsg
  · subst h
    simp
  · simp [Function.update_noteq h]

/-- Occupancy of a slot index depends only on the ring bookkeeping. -/
theorem occupied_congr {b b' : BufferI2cTx} (hn : b'.nbrMsgs = b.nbrMsgs)
    (hc : b'.currentMsg = b.currentMsg) (i : Nat) :
    occupied b' i ↔ occupied b i := by
  unfold occupied
  rw [hn, hc]

/-- The current slot is occupied whenever a message is queued. -/
theorem occupied_cur (b : BufferI2cTx) (hn : 1 ≤ b.nbrMsgs)
    (hc : b.currentMsg < kMaxNbrMsgs) : occupied b b.currentMsg :=
  ⟨0, hn, by rw [Nat.add_zero, Nat.mod_eq_of_lt hc]⟩

/-- Retiring the current message: the slot array is untouched, the ring
bookkeeping stays in range, and every slot still occupied afterwards was
occupied before and is not the just-retired slot. -/
theorem done_facts (b : BufferI2cTx) (hn1 : 1 ≤ b.nbrMsgs)
    (hn3 : b.nbrMsgs ≤ kMaxNbrMsgs) (hc : b.currentMsg < kMaxNbrMsgs) :
    (doneWithCurrentMessage b).2.slots = b.slots ∧
    (doneWithCurrentMessage b).2.nbrMsgs ≤ kMaxNbrMsgs ∧
    (doneWithCurrentMessage b).2.currentMsg < kMaxNbrMsgs ∧
    ∀ i, occupied (doneWithCurrentMessage b).2 i →
      occupied b i ∧ i ≠ b.currentMsg := by
  simp only [kMaxNbrMsgs] at hn3 hc ⊢
  by_cases h1 : b.nbrMsgs = 1
  · rw [done_last b h1]
    refine ⟨rfl, Nat.zero_le _, hc, ?_⟩
    intro i h
    simp only [occupied] at h
    obtain ⟨k, hk, -⟩ := h
    exact absurd hk (by omega)
  · have h2 : 2 ≤ b.nbrMsgs := by omega
    rw [done_more b h2 (by omega) (by simp only [kMaxNbrMsgs]; omega)]
    refine ⟨rfl, ?_, ?_, ?_⟩
    · show b.nbrMsgs - 1 ≤ 3
      omega
    · show (b.currentMsg + 1) % kMaxNbrMsgs < 3
      simp only [kMaxNbrMsgs]
      omega
    · intro i h
      simp only [occupied, kMaxNbrMsgs] at h ⊢
      obtain ⟨k, hk, hi⟩ := h
      rw [Nat.mod_add_mod] at hi
      refine ⟨⟨k + 1, by omega, by omega⟩, by omega⟩

end I2cMaster

namespace I2cMaster

/-- C4: one invocation of the default-build Master interrupt handler, from
any state satisfying the between-interrupts invariant with at least one
queued transaction (the TWI interrupt fires only while the engine is busy),
preserves the invariant and evolves the queued transactions' status cells
monotonically along `kI2cNotStarted → kI2cInProgress → terminal`: no queued
status cell's rank ever decreases, a terminal value is stored only by the
invocation that reclaims the transaction's slot, and the handler writes
only through the current transaction's registered cells — never again to
the status cell of a transaction already reclaimed. -/
theorem c4_status_cell_monotone (tw d : Nat) (st : MasterState)
    (htw : tw < 256) (hd : d < 256) (hnbr : 1 ≤ st.buffer.nbrMsgs)
    (hinv : masterInv st) :
    statusEvolutionOk st (masterIsr false tw d st) := by
  obtain ⟨hn3, hc, hpend, hcnt, hsep⟩ := hinv
  have hoccur : occupied st.buffer st.buffer.currentMsg := occupied_cur _ hnbr hc
  have hSS : ∀ i, i < kMaxNbrMsgs → occupied st.buffer i →
      i ≠ st.buffer.currentMsg →
      (st.buffer.slots i).statusPtr ≠
        (st.buffer.slots st.buffer.currentMsg).statusPtr :=
    fun i hi ho hne => (hsep i hi ho st.buffer.currentMsg hc hoccur).1 hne
  have hSC : ∀ i, i < kMaxNbrMsgs → occupied st.buffer i →
      (st.buffer.slots i).statusPtr ≠
        (st.buffer.slots st.buffer.currentMsg).rxCntPtr :=
    fun i hi ho => (hsep i hi ho st.buffer.currentMsg hc hoccur).2.1
  have hSB : ∀ i, i < kMaxNbrMsgs → occupied st.buffer i → ∀ k, k < 256 →
      (st.buffer.slots i).statusPtr ≠
        (st.buffer.slots st.buffer.currentMsg).rxBufPtr + k :=
    fun i hi ho => (hsep i hi ho st.buffer.currentMsg hc hoccur).2.2
  have hCS : ∀ j, j < kMaxNbrMsgs → occupied st.buffer j →
      (st.buffer.slots j).rxCntPtr ≠
        (st.buffer.slots st.buffer.currentMsg).statusPtr :=
    fun j hj ho => ((hsep st.buffer.currentMsg hc hoccur j hj ho).2.1).symm
  have hcur256 : st.mem ((st.buffer.slots st.buffer.currentMsg).rxCntPtr) < 256 :=
    hcnt _ hc hoccur
  obtain ⟨hdslots, hdnbr, hdcur, hdocc⟩ := done_facts st.buffer hnbr hn3 hc
  -- a step that changes neither the memory nor the occupancy or pointer cells
  have leafPure : ∀ st' : MasterState, st'.mem = st.mem →
      st'.buffer.nbrMsgs = st.buffer.nbrMsgs →
      st'.buffer.currentMsg = st.buffer.currentMsg →
      (∀ i, (st'.buffer.slots i).statusPtr = (st.buffer.slots i).statusPtr ∧
        (st'.buffer.slots i).rxCntPtr = (st.buffer.slots i).rxCntPtr ∧
        (st'.buffer.slots i).rxBufPtr = (st.buffer.slots i).rxBufPtr) →
      statusEvolutionOk st st' := by
    intro st' hm hn hcu hflds
    refine ⟨⟨?_, ?_, ?_, ?_, ?_⟩, ?_, ?_, ?_⟩
    · rw [hn]; exact hn3
    · rw [hcu]; exact hc
    · intro i hi ho
      rw [hm, (hflds i).1]
      exact hpend i hi ((occupied_congr hn hcu i).mp ho)
    · intro i hi ho
      rw [hm, (hflds i).2.1]
      exact hcnt i hi ((occupied_congr hn hcu i).mp ho)
    · intro i hi hoi j hj hoj
      obtain ⟨s1, s2, s3⟩ := hsep i hi ((occupied_congr hn hcu i).mp hoi) j hj
        ((occupied_congr hn hcu j).mp hoj)
      refine ⟨?_, ?_, ?_⟩
      · intro hne
        rw [(hflds i).1, (hflds j).1]
        exact s1 hne
      · rw [(hflds i).1, (hflds j).2.1]
        exact s2
      · intro k hk
        rw [(hflds i).1, (hflds j).2.2]
        exact s3 k hk
    · intro i hi ho
      rw [hm]
    · intro i hi ho hnp
      rw [hm] at hnp
      exact absurd (hpend i hi ho) hnp
    · intro a _ _ _
      rw [hm]
  -- the start branch: the only memory write is InProgress to the current
  -- status cell
  have hpendInP : ∀ i, i < kMaxNbrMsgs → occupied st.buffer i →
      pendingStatus ((Function.update st.mem
        ((st.buffer.slots st.buffer.currentMsg).statusPtr) kI2cInProgress)
        ((st.buffer.slots i).statusPtr)) := by
    intro i hi ho
    by_cases hps : (st.buffer.slots i).statusPtr =
        (st.buffer.slots st.buffer.currentMsg).statusPtr
    · rw [hps, Function.update_same]
      exact Or.inr rfl
    · rw [Function.update_noteq hps]
      exact hpend i hi ho
  have leafStart : ∀ st' : MasterState, st'.buffer = st.buffer →
      st'.mem = Function.update st.mem
        ((st.buffer.slots st.buffer.currentMsg).statusPtr) kI2cInProgress →
      statusEvolutionOk st st' := by
    intro st' hb hm
    refine ⟨⟨?_, ?_, ?_, ?_, ?_⟩, ?_, ?_, ?_⟩
    · rw [hb]; exact hn3
    · rw [hb]; exact hc
    · intro i hi ho
      rw [hb] at ho ⊢
      rw [hm]
      exact hpendInP i hi ho
    · intro i hi ho
      rw [hb] at ho ⊢
      rw [hm, Function.update_noteq (hCS i hi ho)]
      exact hcnt i hi ho
    · intro i hi hoi j hj hoj
      rw [hb] at hoi hoj ⊢
      exact hsep i hi hoi j hj hoj
    · intro i hi ho
      rw [hm]
      by_cases hps : (st.buffer.slots i).statusPtr =
          (st.buffer.slots st.buffer.currentMsg).statusPtr
      · rw [hps, Function.update_same]
        have hr1 := rank_pending (hpend i hi ho)
        rw [hps] at hr1
        have hr2 : statusRank kI2cInProgress = 1 := by decide
        omega
      · rw [Function.update_noteq hps]
    · intro i hi ho hnp
      rw [hm] at hnp
      exact absurd (hpendInP i hi ho) hnp
    · intro a ha1 _ _
      rw [hm, Function.update_noteq ha1]
  -- a step that stores a terminal value to the current status cell and
  -- retires the slot
  have leafDone : ∀ (st' : MasterState) (v : Nat), statusRank v = 2 →
      st'.buffer = (doneWithCurrentMessage st.buffer).2 →
      st'.mem = Function.update st.mem
        ((st.buffer.slots st.buffer.currentMsg).statusPtr) v →
      statusEvolutionOk st st' := by
    intro st' v hv hb hm
    refine ⟨⟨?_, ?_, ?_, ?_, ?_⟩, ?_, ?_, ?_⟩
    · rw [hb]; exact hdnbr
    · rw [hb]; exact hdcur
    · intro i hi ho
      rw [hb] at ho ⊢
      obtain ⟨hobi, hnei⟩ := hdocc i ho
      rw [hdslots, hm, Function.update_noteq (hSS i hi hobi hnei)]
      exact hpend i hi hobi
    · intro i hi ho
      rw [hb] at ho ⊢
      obtain ⟨hobi, -⟩ := hdocc i ho
      rw [hdslots, hm, Function.update_noteq (hCS i hi hobi)]
      exact hcnt i hi hobi
    · intro i hi hoi j hj hoj
      rw [hb] at hoi hoj ⊢
      rw [hdslots]
      exact hsep i hi (hdocc i hoi).1 j hj (hdocc j hoj).1
    · intro i hi ho
      rw [hm]
      by_cases hps : (st.buffer.slots i).statusPtr =
          (st.buffer.slots st.buffer.currentMsg).statusPtr
      · rw [hps, Function.update_same, hv]
        exact statusRank_le_two _
      · rw [Function.update_noteq hps]
    · intro i hi ho hnp
      intro hoc
      rw [hb] at hoc
      obtain ⟨hobi, hnei⟩ := hdocc i hoc
      rw [hm, Function.update_noteq (hSS i hi hobi hnei)] at hnp
      exact hnp (hpend i hi hobi)
    · intro a ha1 _ _
      rw [hm, Function.update_noteq ha1]
  -- a receive step: store the byte into the current receive buffer and
  -- bump the current counter cell
  have leafRecv : ∀ (v : Nat), v < 256 → ∀ st' : MasterState,
      st'.buffer = st.buffer →
      st'.mem = Function.update (Function.update st.mem
        ((st.buffer.slots st.buffer.currentMsg).rxBufPtr +
          st.mem ((st.buffer.slots st.buffer.currentMsg).rxCntPtr)) d)
        ((st.buffer.slots st.buffer.currentMsg).rxCntPtr) v →
      statusEvolutionOk st st' := by
    intro v hv st' hb hm
    have hmemS : ∀ i, i < kMaxNbrMsgs → occupied st.buffer i →
        st'.mem ((st.buffer.slots i).statusPtr) =
          st.mem ((st.buffer.slots i).statusPtr) := by
      intro i hi ho
      rw [hm, Function.update_noteq (hSC i hi ho),
        Function.update_noteq (hSB i hi ho _ hcur256)]
    refine ⟨⟨?_, ?_, ?_, ?_, ?_⟩, ?_, ?_, ?_⟩
    · rw [hb]; exact hn3
    · rw [hb]; exact hc
    · intro i hi ho
      rw [hb] at ho ⊢
      rw [hmemS i hi ho]
      exact hpend i hi ho
    · intro j hj ho
      rw [hb] at ho ⊢
      rw [hm]
      by_cases hj1 : (st.buffer.slots j).rxCntPtr =
          (st.buffer.slots st.buffer.currentMsg).rxCntPtr
      · rw [hj1, Function.update_same]
        exact hv
      · rw [Function.update_noteq hj1]
        by_cases hj2 : (st.buffer.slots j).rxCntPtr =
            (st.buffer.slots st.buffer.currentMsg).rxBufPtr +
              st.mem ((st.buffer.slots st.buffer.currentMsg).rxCntPtr)
        · rw [hj2, Function.update_same]
          exact hd
        · rw [Function.update_noteq hj2]
          exact hcnt j hj ho
    · intro i hi hoi j hj hoj
      rw [hb] at hoi hoj ⊢
      exact hsep i hi hoi j hj hoj
    · intro i hi ho
      rw [hmemS i hi ho]
    · intro i hi ho hnp
      rw [hmemS i hi ho] at hnp
      exact absurd (hpend i hi ho) hnp
    · intro a _ ha2 ha3
      rw [hm, Function.update_noteq ha2,
        Function.update_noteq (ha3 _ hcur256)]
  -- the final receive step: byte store, counter bump, CompletedOk to the
  -- current status cell, slot retired
  have leafRecvDone : ∀ (v : Nat), v < 256 → ∀ st' : MasterState,
      st'.buffer = (doneWithCurrentMessage st.buffer).2 →
      st'.mem = Function.update (Function.update (Function.update st.mem
        ((st.buffer.slots st.buffer.currentMsg).rxBufPtr +
          st.mem ((st.buffer.slots st.buffer.currentMsg).rxCntPtr)) d)
        ((st.buffer.slots st.buffer.currentMsg).rxCntPtr) v)
        ((st.buffer.slots st.buffer.currentMsg).statusPtr) kI2cCompletedOk →
      statusEvolutionOk st st' := by
    intro v hv st' hb hm
    have hmemS : ∀ i, i < kMaxNbrMsgs → occupied st.buffer i →
        i ≠ st.buffer.currentMsg →
        st'.mem ((st.buffer.slots i).statusPtr) =
          st.mem ((st.buffer.slots i).statusPtr) := by
      intro i hi ho hne
      rw [hm, Function.update_noteq (hSS i hi ho hne),
        Function.update_noteq (hSC i hi ho),
        Function.update_noteq (hSB i hi ho _ hcur256)]
    refine ⟨⟨?_, ?_, ?_, ?_, ?_⟩, ?_, ?_, ?_⟩
    · rw [hb]; exact hdnbr
    · rw [hb]; exact hdcur
    · intro i hi ho
      rw [hb] at ho ⊢
      obtain ⟨hobi, hnei⟩ := hdocc i ho
      rw [hdslots, hmemS i hi hobi hnei]
      exact hpend i hi hobi
    · intro j hj ho
      rw [hb] at ho ⊢
      obtain ⟨hobj, -⟩ := hdocc j ho
      rw [hdslots, hm, Function.update_noteq (hCS j hj hobj)]
      by_cases hj1 : (st.buffer.slots j).rxCntPtr =
          (st.buffer.slots st.buffer.currentMsg).rxCntPtr
      · rw [hj1, Function.update_same]
        exact hv
      · rw [Function.update_noteq hj1]
        by_cases hj2 : (st.buffer.slots j).rxCntPtr =
            (st.buffer.slots st.buffer.currentMsg).rxBufPtr +
              st.mem ((st.buffer.slots st.buffer.currentMsg).rxCntPtr)
        · rw [hj2, Function.update_same]
          exact hd
        · rw [Function.update_noteq hj2]
          exact hcnt j hj hobj
    · intro i hi hoi j hj hoj
      rw [hb] at hoi hoj ⊢
      rw [hdslots]
      exact hsep i hi (hdocc i hoi).1 j hj (hdocc j hoj).1
    · intro i hi ho
      rw [hm]
      by_cases hps : (st.buffer.slots i).statusPtr =
          (st.buffer.slots st.buffer.currentMsg).statusPtr
      · rw [hps, Function.update_same]
        have hr2 : statusRank kI2cCompletedOk = 2 := by decide
        rw [hr2]
        exact statusRank_le_two _
      · rw [Function.update_noteq hps, Function.update_noteq (hSC i hi ho),
          Function.update_noteq (hSB i hi ho _ hcur256)]
    · intro i hi ho hnp
      intro hoc
      rw [hb] at hoc
      obtain ⟨hobi, hnei⟩ := hdocc i hoc
      rw [hmemS i hi hobi hnei] at hnp
      exact hnp (hpend i hi hobi)
    · intro a ha1 ha2 ha3
      rw [hm, Function.update_noteq ha1, Function.update_noteq ha2,
        Function.update_noteq (ha3 _ hcur256)]
  -- case analysis over the interrupt handler's branches
  by_cases h1 : tw = TW_START ∨ tw = TW_REP_START
  · have hstep := isr_start false tw h1 d st
    exact leafStart (masterIsr false tw d st) (by rw [hstep])
      (by rw [hstep]; rfl)
  by_cases h2 : tw = TW_MT_SLA_ACK ∨ tw = TW_MT_DATA_ACK
  · by_cases hcb : st.buffer.currentByte <
        (st.buffer.slots st.buffer.currentMsg).txBufferSize
    · have hstep : masterIsr false tw d st =
          { st with
              buffer := { st.buffer with currentByte := st.buffer.currentByte + 1 }
              twdr := (st.buffer.slots st.buffer.currentMsg).txData
                st.buffer.currentByte
              control := .sendNextByte } := by
        rw [isr_mt_ack false tw h2 d st, getCurrentByte_lt _ hcb]
      exact leafPure (masterIsr false tw d st) (by rw [hstep]) (by rw [hstep])
        (by rw [hstep]) (fun i => ⟨by rw [hstep], by rw [hstep], by rw [hstep]⟩)
    · by_cases hmo : getCurrentTxMode st.buffer = kI2cWriteRestartRead
      · have hstep : masterIsr false tw d st =
            { st with buffer := setCurrentTxMode st.buffer kI2cRead
                      control := .sendRestart } := by
          rw [isr_mt_ack false tw h2 d st, getCurrentByte_ge _ hcb]
          simp [hmo]
        exact leafPure (masterIsr false tw d st) (by rw [hstep])
          (by rw [hstep]; rfl) (by rw [hstep]; rfl)
          (fun i => ⟨by rw [hstep]; exact (setMode_fields st.buffer kI2cRead i).1,
            by rw [hstep]; exact (setMode_fields st.buffer kI2cRead i).2.1,
            by rw [hstep]; exact (setMode_fields st.buffer kI2cRead i).2.2⟩)
      · have hbuf : (masterIsr false tw d st).buffer =
            (doneWithCurrentMessage st.buffer).2 := by
          rw [isr_mt_ack false tw h2 d st, getCurrentByte_ge _ hcb]
          simp [hmo]
          split_ifs <;> rfl
        have hmem : (masterIsr false tw d st).mem =
            Function.update st.mem
              ((st.buffer.slots st.buffer.currentMsg).statusPtr)
              kI2cCompletedOk := by
          rw [isr_mt_ack false tw h2 d st, getCurrentByte_ge _ hcb]
          simp [hmo]
          split_ifs <;> rfl
        exact leafDone (masterIsr false tw d st) kI2cCompletedOk (by decide)
          hbuf hmem
  by_cases h3 : tw = TW_MR_SLA_ACK
  · subst h3
    exact leafPure (masterIsr false TW_MR_SLA_ACK d st)
      (by rw [isr_mr_sla_ack false d st]; split_ifs <;> rfl)
      (by rw [isr_mr_sla_ack false d st]; split_ifs <;> rfl)
      (by rw [isr_mr_sla_ack false d st]; split_ifs <;> rfl)
      (fun i => ⟨by rw [isr_mr_sla_ack false d st]; split_ifs <;> rfl,
        by rw [isr_mr_sla_ack false d st]; split_ifs <;> rfl,
        by rw [isr_mr_sla_ack false d st]; split_ifs <;> rfl⟩)
  by_cases h4 : tw = TW_MR_DATA_ACK
  · subst h4
    exact leafRecv ((Function.update st.mem
        ((st.buffer.slots st.buffer.currentMsg).rxBufPtr +
          st.mem ((st.buffer.slots st.buffer.currentMsg).rxCntPtr)) d
        ((st.buffer.slots st.buffer.currentMsg).rxCntPtr) + 1) % 256)
      (Nat.mod_lt _ (by omega)) (masterIsr false TW_MR_DATA_ACK d st)
      (by rw [isr_mr_data_ack false d st]
          simp only [getCurrentRxBufferCtr, getCurrentRxBufferPtr]
          split_ifs <;> rfl)
      (by rw [isr_mr_data_ack false d st]
          simp only [getCurrentRxBufferCtr, getCurrentRxBufferPtr]
          split_ifs <;> rfl)
  by_cases h5 : tw = TW_MR_DATA_NACK
  · subst h5
    exact leafRecvDone ((Function.update st.mem
        ((st.buffer.slots st.buffer.currentMsg).rxBufPtr +
          st.mem ((st.buffer.slots st.buffer.currentMsg).rxCntPtr)) d
        ((st.buffer.slots st.buffer.currentMsg).rxCntPtr) + 1) % 256)
      (Nat.mod_lt _ (by omega)) (masterIsr false TW_MR_DATA_NACK d st)
      (by rw [isr_mr_data_nack false d st]
          simp only [getCurrentRxBufferCtr, getCurrentRxBufferPtr]
          split_ifs <;> rfl)
      (by rw [isr_mr_data_nack false d st]
          simp only [getCurrentRxBufferCtr, getCurrentRxBufferPtr]
          split_ifs <;> rfl)
  by_cases h6 : tw = TW_MT_ARB_LOST
  · subst h6
    exact leafPure (masterIsr false TW_MT_ARB_LOST d st)
      (by rw [isr_arb_lost false d st]) (by rw [isr_arb_lost false d st])
      (by rw [isr_arb_lost false d st])
      (fun i => ⟨by rw [isr_arb_lost false d st],
        by rw [isr_arb_lost false d st], by rw [isr_arb_lost false d st]⟩)
  · obtain ⟨e1, e2⟩ := not_or.mp h1
    obtain ⟨e3, e4⟩ := not_or.mp h2
    have hstep := isr_unhandled tw d st e1 e2 e3 e4 h3 h4 h5 h6
    have hbuf : (masterIsr false tw d st).buffer =
        (doneWithCurrentMessage st.buffer).2 := by
      rw [hstep]
      split_ifs <;> rfl
    have hmem : (masterIsr false tw d st).mem =
        Function.update st.mem
          ((st.buffer.slots st.buffer.currentMsg).statusPtr)
          (tw ||| kI2cError) := by
      rw [hstep]
      split_ifs <;> rfl
    exact leafDone (masterIsr false tw d st) (tw ||| kI2cError) (rank_error tw)
      hbuf hmem

/-- Witness for the status-lifecycle claim at a concrete input: the start
interrupt on the demo state with one queued write. -/
theorem c4_witness :
    TW_START < 256 ∧ (0 : Nat) < 256 ∧ 1 ≤ c4DemoState.buffer.nbrMsgs ∧
    masterInv c4DemoState ∧
    statusEvolutionOk c4DemoState (masterIsr false TW_START 0 c4DemoState) :=
  ⟨by decide, by decide, by decide, by decide,
    c4_status_cell_monotone TW_START 0 c4DemoState (by decide) (by decide)
      (by decide) (by decide)⟩

end I2cMaster
